import Mathlib

/-!
Verification of the in-memory hierarchical key-value store prototype
(src/main.c together with the entity definitions of main.h).

The C program builds a pointer graph of two record kinds:

  struct s_node { north west : Node*; east : Leaf*; uint8_t path[256]; Tag tag }
  struct s_leaf { west : Tree*; east : Leaf*; int8_t key[128]; int8_t *value;
                  int16_t size; Tag tag }

We embed the mutable pointer graph shallowly: the heap is a list of entities,
an address is the index of an entity in that list, malloc appends a fresh
entity at the end (so a fresh address equals the current heap length), and a
NULL pointer is the value none of an Option Addr.  Fixed-size character
arrays (path[256], key[128]) are byte lists of that length; the bytes of the
C string an int8_t* argument points at are passed as a byte list.  The two
malloc results inside the operations are supplied as parameters: some g for a
successful allocation returning uninitialised (garbage) content g, none for a
failed allocation.  A failed assert terminates the process; we model that as
an error result carrying which assert fired and the heap state at that
moment.  errno (set by the reterr macro) is not modelled; no claim mentions
it.  Arithmetic on uint16_t/int16_t values never approaches the wrap-around
range in any claim, so sizes are plain naturals.
-/

namespace DbServer

/-- Addresses are indices into the heap list. -/
abbrev Addr := Nat

/-- Tag value of the root container (main.h, TagRoot). -/
def TagRoot : Nat := 1

/-- Tag value of an interior container (main.h, TagNode). -/
def TagNode : Nat := 2

/-- Tag value of a key-value record (main.h, TagLeaf). -/
def TagLeaf : Nat := 3

/-- Bytes of the C string stored in a byte list: everything before the first
NUL byte (what strlen/str-copying functions read). -/
def strContent (s : List Nat) : List Nat := s.takeWhile (fun b => b ≠ 0)

/-- Overwrite the first src.length bytes of a buffer with src, keeping the
rest (the effect of writing src at the start of the buffer). -/
def writeBytes (dst src : List Nat) : List Nat := src ++ dst.drop src.length

/-- The exactly n bytes strncpy(dst, src, n) stores: the first n bytes of the
source string, padded with NUL bytes up to n if the source is shorter. -/
def strncpyChunk (src : List Nat) (n : Nat) : List Nat :=
  (strContent src).take n ++ List.replicate (n - (strContent src).length) 0

/-- The buffer snprintf(dst, cap, "%s", src) leaves behind: at most cap-1
source bytes followed by a terminating NUL, rest of dst unchanged. -/
def snprintfBuf (dst : List Nat) (cap : Nat) (src : List Nat) : List Nat :=
  writeBytes dst ((strContent src).take (cap - 1) ++ [0])

/-- struct s_leaf (main.h): back pointer west (to the owning node or the
previous leaf), sibling pointer east, key[128], value pointer with its
bytes (none is NULL), size and tag. -/
structure Leaf where
  west : Option Addr
  east : Option Addr
  key : List Nat
  value : Option (List Nat)
  size : Nat
  tag : Nat
deriving Repr, DecidableEq

/-- struct s_node (main.h): parent pointer north, child-node pointer west,
first-leaf pointer east, path[256], tag. -/
structure Node where
  north : Option Addr
  west : Option Addr
  east : Option Addr
  path : List Nat
  tag : Nat
deriving Repr, DecidableEq

/-- One allocated object of the tagged union u_tree: either a node or a leaf. -/
inductive Entity where
  | node (n : Node)
  | leaf (l : Leaf)
deriving Repr, DecidableEq

/-- The heap: entity at address a is the list element at index a; malloc
appends at the end, so a fresh address is the current length. -/
abbrev Heap := List Entity

/-- Read the node stored at an address (none if out of range or the address
holds a leaf; the C code would be reading through a mistyped pointer). -/
def readNode (h : Heap) (a : Addr) : Option Node :=
  match h[a]? with
  | some (Entity.node n) => some n
  | _ => none

/-- Read the leaf stored at an address. -/
def readLeaf (h : Heap) (a : Addr) : Option Leaf :=
  match h[a]? with
  | some (Entity.leaf l) => some l
  | _ => none

/-- Store an entity at an address (no-op when out of range, which never
happens at the addresses the operations write). -/
def writeEnt (h : Heap) (a : Addr) (e : Entity) : Heap := h.set a e

/-- Update the node at an address in place (no-op if the address does not
hold a node). -/
def setNodeAt (h : Heap) (a : Addr) (f : Node → Node) : Heap :=
  match readNode h a with
  | some n => writeEnt h a (Entity.node (f n))
  | none => h

/-- Update the leaf at an address in place. -/
def setLeafAt (h : Heap) (a : Addr) (f : Leaf → Leaf) : Heap :=
  match readLeaf h a with
  | some l => writeEnt h a (Entity.leaf (f l))
  | none => h

/-- A node whose whole memory block has been zeroed by zero(): all pointers
NULL, path bytes all 0, tag 0. -/
def zeroNode : Node :=
  { north := none, west := none, east := none, path := List.replicate 256 0, tag := 0 }

/-- A leaf whose whole memory block has been zeroed by zero(). -/
def zeroLeaf : Leaf :=
  { west := none, east := none, key := List.replicate 128 0, value := none, size := 0, tag := 0 }

/-- Which failed assert (or mistyped pointer dereference) stopped execution. -/
inductive Fault where
  /-- zero() dereferenced a NULL pointer: the assert in main.c line 8 fired. -/
  | zeroAssertNull
  /-- create_node entered with parent == NULL (main.c line 21). -/
  | nodeParentAssert
  /-- find_last_linear entered with parent == NULL (main.c line 66). -/
  | findParentAssert
  /-- create_leaf entered with parent == NULL (main.c line 97). -/
  | leafParentAssert
  /-- assert(new_leaf) after the record malloc failed (main.c line 102). -/
  | newLeafAssert
  /-- assert(new_leaf->value) after the value malloc failed (main.c line 134).
  Unreachable in the model: zero(new_leaf->value, count) runs first (line 133)
  and its own NULL assert fires before this one can. -/
  | valueAssert
  /-- A pointer was dereferenced at an address that does not hold an entity of
  the expected kind (undefined behaviour in the C program). -/
  | invalidRead
deriving Repr, DecidableEq

/-- zero(ptr, size) (main.c lines 4-13): asserts the pointer is non-NULL and
fills the buffer with size zero bytes. -/
def zero (ptr : Option (List Nat)) (size : Nat) : Except Fault (List Nat) :=
  match ptr with
  | none => Except.error Fault.zeroAssertNull
  | some _ => Except.ok (List.replicate size 0)

/-- The east-chain walk of find_last_linear (main.c lines 77-86), with fuel:
follow leaf.east until it is NULL and return that last leaf's address.  Any
NUL-terminated chain inside a heap of n entities has at most n leaves
(addresses cannot repeat, proved below), so fuel n suffices exactly when the
C loop terminates. -/
def chase (h : Heap) : Nat → Addr → Except Fault Addr
  | 0, _ => Except.error Fault.invalidRead
  | fuel + 1, a =>
    match readLeaf h a with
    | none => Except.error Fault.invalidRead
    | some l =>
      match l.east with
      | none => Except.ok a
      | some a2 => chase h fuel a2

/-- find_last_linear (main.c lines 61-89): assert parent non-NULL; if
parent->east is NULL return NULL (the reterr(NoError) macro from main.h,
which is not in src/ - modelled from the spec: findChainTail returns an
empty result if the chain is empty; errno is not modelled); otherwise walk
the east chain and return the last leaf. -/
def find_last_linear (h : Heap) (parent : Option Addr) : Except Fault (Option Addr) :=
  match parent with
  | none => Except.error Fault.findParentAssert
  | some p =>
    match readNode h p with
    | none => Except.error Fault.invalidRead
    | some pn =>
      match pn.east with
      | none => Except.ok none
      | some a => (chase h h.length a).map some

/-- Modelled from the spec: create_leaf calls find_last, whose definition
lives in the main.h revision missing from src/.  Spec section 4.3 says
appendRecord locates the current chain tail via findChainTail, which is the
linear search find_last_linear. -/
def find_last (h : Heap) (parent : Option Addr) : Except Fault (Option Addr) :=
  find_last_linear h parent

/-- The successive heap states of a successful create_node allocation
(main.c), in statement order: after malloc (line 26), zero (38),
parent->west = node (46), node->tag = TagNode (47), node->north = parent
(48), node->east = NULL (49), snprintf of path (53).  The address of the
new node is the pre-call heap length. -/
def create_node_trace (h : Heap) (p : Addr) (path : List Nat) (g : Node) : List Heap :=
  let a := h.length
  let h1 := h ++ [Entity.node g]
  let h2 := setNodeAt h1 a (fun _ => zeroNode)
  let h3 := setNodeAt h2 p (fun pn => { pn with west := some a })
  let h4 := setNodeAt h3 a (fun n => { n with tag := TagNode })
  let h5 := setNodeAt h4 a (fun n => { n with north := some p })
  let h6 := setNodeAt h5 a (fun n => { n with east := none })
  let h7 := setNodeAt h6 a (fun n => { n with path := snprintfBuf n.path 256 path })
  [h1, h2, h3, h4, h5, h6, h7]

/-- create_node (main.c lines 15-59): assert parent non-NULL; malloc a node
(returning NULL on allocation failure, in which case NULL is returned and
nothing was written); otherwise zero it, link parent->west to it, set tag,
north, east and copy the path with snprintf; return the new node.  The alloc
parameter is the malloc outcome (none = failure, some g = success with
garbage content g). -/
def create_node (h : Heap) (parent : Option Addr) (path : List Nat) (alloc : Option Node) :
    Except (Fault × Heap) (Option Addr × Heap) :=
  match parent with
  | none => Except.error (Fault.nodeParentAssert, h)
  | some p =>
    match alloc with
    | none => Except.ok (none, h)
    | some g =>
      match readNode h p with
      | none => Except.error (Fault.invalidRead, h ++ [Entity.node g])
      | some _ => Except.ok (some h.length, (create_node_trace h p path g).getLastD h)

/-- The successive heap states of create_leaf after the chain-tail lookup,
for a successful record malloc (main.c), in statement order: after malloc
(line 101), the east link from the node or the previous tail (106/111), zero
of the record (114), tag (115), west back pointer (121/127), key strncpy
(130).  If the value malloc succeeds the trace continues with the value
pointer assignment plus zero (132-133), the value strncpy (136) and the size
store (137); if it fails the trace ends with the NULL value pointer stored
(132), after which zero() faults.  prev is the chain tail found by
find_last; valMem holds the bytes of the string in memory at the address the
single-byte value argument denotes (see create_leaf below). -/
def create_leaf_trace (h : Heap) (p : Addr) (prev : Option Addr) (key : List Nat)
    (count : Nat) (valMem : List Nat) (g : Leaf) (allocValue : Bool) : List Heap :=
  let na := h.length
  let h1 := h ++ [Entity.leaf g]
  let h2 := match prev with
    | none => setNodeAt h1 p (fun pn => { pn with east := some na })
    | some la => setLeafAt h1 la (fun ll => { ll with east := some na })
  let h3 := setLeafAt h2 na (fun _ => zeroLeaf)
  let h4 := setLeafAt h3 na (fun l => { l with tag := TagLeaf })
  let h5 := setLeafAt h4 na (fun l => { l with west := some (prev.getD p) })
  let h6 := setLeafAt h5 na (fun l => { l with key := writeBytes l.key (strncpyChunk key 127) })
  if allocValue then
    let h7 := setLeafAt h6 na (fun l => { l with value := some (List.replicate count 0) })
    let h8 := setLeafAt h7 na (fun l => { l with value := some (strncpyChunk valMem count) })
    let h9 := setLeafAt h8 na (fun l => { l with size := count })
    [h1, h2, h3, h4, h5, h6, h7, h8, h9]
  else
    let h7 := setLeafAt h6 na (fun l => { l with value := none })
    [h1, h2, h3, h4, h5, h6, h7]

/-- create_leaf (main.c lines 91-140): assert parent non-NULL; find the chain
tail; malloc the record and assert the result non-NULL (termination on
allocation failure); link it as the parent's east head or the previous
tail's east sibling BEFORE zeroing it; zero it, tag it, set its west back
pointer, strncpy at most 127 key bytes into the zeroed key buffer; malloc
count bytes for the value, zero them (the zero() NULL assert fires here if
that malloc failed, before the dedicated assert on line 134 is reached),
strncpy count bytes into the value buffer and store the size; return the
PREVIOUS tail (NULL when the chain was empty), not the new record.

The C parameter value has type uint8_t (a single byte); line 136 casts that
byte to char* and strncpy reads the string at that memory address.  valMem
is the byte list of that string.  allocLeaf/allocValue are the outcomes of
the two mallocs. -/
def create_leaf (h : Heap) (parent : Option Addr) (key : List Nat) (count : Nat)
    (valMem : List Nat) (allocLeaf : Option Leaf) (allocValue : Bool) :
    Except (Fault × Heap) (Option Addr × Heap) :=
  match parent with
  | none => Except.error (Fault.leafParentAssert, h)
  | some p =>
    match find_last h (some p) with
    | Except.error f => Except.error (f, h)
    | Except.ok prev =>
      match allocLeaf with
      | none => Except.error (Fault.newLeafAssert, h)
      | some g =>
        let tr := create_leaf_trace h p prev key count valMem g allocValue
        if allocValue then Except.ok (prev, tr.getLastD h)
        else Except.error (Fault.zeroAssertNull, tr.getLastD h)

/-- The root entity as main initialises it (main.c lines 168-172): no parent,
no children, empty path, TagRoot.  C zero-initialises the global, so the
path bytes beyond the stored NUL are 0. -/
def rootNode : Node :=
  { north := none, west := none, east := none, path := List.replicate 256 0, tag := TagRoot }

/-- A heap holding just the initialised root, at address 0. -/
def initHeap : Heap := [Entity.node rootNode]

/-- Does the east chain of the node at p consist of exactly the leaf
addresses in the given list, in order, ending in a NULL sibling pointer? -/
def chainFromB (h : Heap) : Option Addr → List Addr → Bool
  | none, [] => true
  | none, _ :: _ => false
  | some _, [] => false
  | some a, b :: rest =>
    decide (a = b) &&
      (match readLeaf h a with
       | some l => chainFromB h l.east rest
       | none => false)

/-- The leaf chain of the container at p is exactly the address list as. -/
def isChain (h : Heap) (p : Addr) (as : List Addr) : Bool :=
  match readNode h p with
  | some pn => chainFromB h pn.east as
  | none => false

/-- Addresses reachable from a container by following west
(child-container) links, with fuel. -/
def westReach (h : Heap) : Nat → Option Addr → List Addr
  | 0, _ => []
  | _ + 1, none => []
  | fuel + 1, some a =>
    a :: (match readNode h a with
          | some n => westReach h fuel n.west
          | none => [])

/-- The heap an operation returned on success (default d when it failed). -/
def okHeap (r : Except (Fault × Heap) (Option Addr × Heap)) (d : Heap) : Heap :=
  match r with
  | Except.ok (_, h) => h
  | Except.error _ => d

/-- The pointer value an operation returned, if it returned at all (none
means the process terminated on a failed assert). -/
def retVal (r : Except (Fault × Heap) (Option Addr × Heap)) : Option (Option Addr) :=
  match r with
  | Except.ok (v, _) => some v
  | Except.error _ => none

/-- Which assert fault an operation died with, if any. -/
def faultOf (r : Except (Fault × Heap) (Option Addr × Heap)) : Option Fault :=
  match r with
  | Except.error (f, _) => some f
  | Except.ok _ => none

/-- The heap state at the moment a failed assert terminated the process. -/
def faultHeap (r : Except (Fault × Heap) (Option Addr × Heap)) (d : Heap) : Heap :=
  match r with
  | Except.error (_, h) => h
  | Except.ok _ => d

/-- Heap after a successful create_node call. -/
def afterCreateNode (h : Heap) (p : Addr) (path : List Nat) (g : Node) : Heap :=
  okHeap (create_node h (some p) path (some g)) h

/-- Heap after a fully successful create_leaf call. -/
def afterCreateLeaf (h : Heap) (p : Addr) (key : List Nat) (count : Nat)
    (valMem : List Nat) (g : Leaf) : Heap :=
  okHeap (create_leaf h (some p) key count valMem (some g) true) h

/-- west field of the node at an address. -/
def nodeWestAt (h : Heap) (a : Addr) : Option (Option Addr) := (readNode h a).map Node.west

/-- east field of the node at an address. -/
def nodeEastAt (h : Heap) (a : Addr) : Option (Option Addr) := (readNode h a).map Node.east

/-- north field of the node at an address. -/
def nodeNorthAt (h : Heap) (a : Addr) : Option (Option Addr) := (readNode h a).map Node.north

/-- tag field of the node at an address. -/
def nodeTagAt (h : Heap) (a : Addr) : Option Nat := (readNode h a).map Node.tag

/-- east (sibling) field of the leaf at an address. -/
def leafEastAt (h : Heap) (a : Addr) : Option (Option Addr) := (readLeaf h a).map Leaf.east

/-- west (back pointer) field of the leaf at an address. -/
def leafWestAt (h : Heap) (a : Addr) : Option (Option Addr) := (readLeaf h a).map Leaf.west

/-- tag field of the leaf at an address. -/
def leafTagAt (h : Heap) (a : Addr) : Option Nat := (readLeaf h a).map Leaf.tag

/-! Heap read/write bookkeeping lemmas. -/

theorem readNode_lt {h : Heap} {a : Addr} {n : Node} (hp : readNode h a = some n) :
    a < h.length := by
  unfold readNode at hp
  rcases hg : h[a]? with _ | e
  · rw [hg] at hp; exact absurd hp (by simp)
  · rcases List.getElem?_eq_some.mp hg with ⟨hlt, _⟩; exact hlt

theorem readLeaf_lt {h : Heap} {a : Addr} {l : Leaf} (hp : readLeaf h a = some l) :
    a < h.length := by
  unfold readLeaf at hp
  rcases hg : h[a]? with _ | e
  · rw [hg] at hp; exact absurd hp (by simp)
  · rcases List.getElem?_eq_some.mp hg with ⟨hlt, _⟩; exact hlt

@[simp]
theorem length_writeEnt (h : Heap) (a : Addr) (e : Entity) :
    (writeEnt h a e).length = h.length := List.length_set h a e

theorem readNode_writeEnt_self {h : Heap} {a : Addr} (n : Node) (ha : a < h.length) :
    readNode (writeEnt h a (Entity.node n)) a = some n := by
  unfold readNode writeEnt
  rw [List.getElem?_set_eq_of_lt _ ha]

theorem readLeaf_writeEnt_self {h : Heap} {a : Addr} (l : Leaf) (ha : a < h.length) :
    readLeaf (writeEnt h a (Entity.leaf l)) a = some l := by
  unfold readLeaf writeEnt
  rw [List.getElem?_set_eq_of_lt _ ha]

theorem readNode_writeEnt_ne {h : Heap} {a b : Addr} (e : Entity) (hab : b ≠ a) :
    readNode (writeEnt h b e) a = readNode h a := by
  unfold readNode writeEnt
  rw [List.getElem?_set_ne hab]

theorem readLeaf_writeEnt_ne {h : Heap} {a b : Addr} (e : Entity) (hab : b ≠ a) :
    readLeaf (writeEnt h b e) a = readLeaf h a := by
  unfold readLeaf writeEnt
  rw [List.getElem?_set_ne hab]

theorem readNode_append_self (h : Heap) (g : Node) :
    readNode (h ++ [Entity.node g]) h.length = some g := by
  unfold readNode
  rw [List.getElem?_concat_length]

theorem readLeaf_append_self (h : Heap) (g : Leaf) :
    readLeaf (h ++ [Entity.leaf g]) h.length = some g := by
  unfold readLeaf
  rw [List.getElem?_concat_length]

theorem readNode_append_lt {h : Heap} {a : Addr} (e : Entity) (ha : a < h.length) :
    readNode (h ++ [e]) a = readNode h a := by
  unfold readNode
  rw [List.getElem?_append_left ha]

theorem readLeaf_append_lt {h : Heap} {a : Addr} (e : Entity) (ha : a < h.length) :
    readLeaf (h ++ [e]) a = readLeaf h a := by
  unfold readLeaf
  rw [List.getElem?_append_left ha]

theorem writeEnt_writeEnt (h : Heap) (a : Addr) (e e2 : Entity) :
    writeEnt (writeEnt h a e) a e2 = writeEnt h a e2 := List.set_set e e2 h a

theorem setNodeAt_of_read {h : Heap} {a : Addr} {n : Node} (f : Node → Node)
    (hr : readNode h a = some n) : setNodeAt h a f = writeEnt h a (Entity.node (f n)) := by
  unfold setNodeAt
  rw [hr]

theorem setLeafAt_of_read {h : Heap} {a : Addr} {l : Leaf} (f : Leaf → Leaf)
    (hr : readLeaf h a = some l) : setLeafAt h a f = writeEnt h a (Entity.leaf (f l)) := by
  unfold setLeafAt
  rw [hr]

/-! Symbolic runs of create_node and create_leaf: closed forms of the final
heap, used by the claim proofs. -/

/-- The node record a successful create_node leaves at the fresh address. -/
def createdNode (p : Addr) (path : List Nat) : Node :=
  { north := some p, west := none, east := none,
    path := snprintfBuf (List.replicate 256 0) 256 path, tag := TagNode }

/-- The leaf record a fully successful create_leaf leaves at the fresh
address (w is the back pointer: the parent node for the first leaf in the
chain, the previous tail otherwise). -/
def createdLeaf (w : Option Addr) (key : List Nat) (count : Nat) (valMem : List Nat) : Leaf :=
  { west := w, east := none,
    key := writeBytes (List.replicate 128 0) (strncpyChunk key 127),
    value := some (strncpyChunk valMem count), size := count, tag := TagLeaf }

/-- The leaf record left at the fresh address when the value malloc failed
and the zero() assert stopped the process: linked and tagged, key copied,
but value NULL and size never stored. -/
def haltedLeaf (w : Option Addr) (key : List Nat) : Leaf :=
  { west := w, east := none,
    key := writeBytes (List.replicate 128 0) (strncpyChunk key 127),
    value := none, size := 0, tag := TagLeaf }

/-- The final heap of a successful create_node in closed form: the garbage
node appended, zeroed, the parent-west link written, and the finished node
record written at the fresh address. -/
def cnFinal (h : Heap) (p : Addr) (path : List Nat) (g : Node) (pn : Node) : Heap :=
  writeEnt (writeEnt (writeEnt (h ++ [Entity.node g]) h.length (Entity.node zeroNode)) p
    (Entity.node { pn with west := some h.length })) h.length (Entity.node (createdNode p path))

theorem create_node_trace_last {h : Heap} {p : Addr} (path : List Nat) (g : Node) {pn : Node}
    (hp : readNode h p = some pn) :
    (create_node_trace h p path g).getLastD h = cnFinal h p path g pn := by
  have hlt : p < h.length := readNode_lt hp
  have hne : p ≠ h.length := Nat.ne_of_lt hlt
  have hlt1 : h.length < (h ++ [Entity.node g]).length := by
    simp [List.length_append]
  have r1 : readNode (h ++ [Entity.node g]) h.length = some g := readNode_append_self h g
  have e2 : setNodeAt (h ++ [Entity.node g]) h.length (fun _ => zeroNode) =
      writeEnt (h ++ [Entity.node g]) h.length (Entity.node zeroNode) :=
    setNodeAt_of_read _ r1
  have r2 : readNode (writeEnt (h ++ [Entity.node g]) h.length (Entity.node zeroNode)) p
      = some pn := by
    rw [readNode_writeEnt_ne _ (Ne.symm hne), readNode_append_lt _ hlt, hp]
  unfold create_node_trace
  simp only [List.getLastD]
  rw [e2, setNodeAt_of_read _ r2]
  -- the four field updates at the fresh address, each reading the record
  -- written by the previous one
  have hlen2 : h.length <
      (writeEnt (writeEnt (h ++ [Entity.node g]) h.length (Entity.node zeroNode)) p
        (Entity.node { pn with west := some h.length })).length := by
    simp [List.length_append]
  have base : readNode
      (writeEnt (writeEnt (h ++ [Entity.node g]) h.length (Entity.node zeroNode)) p
        (Entity.node { pn with west := some h.length })) h.length = some zeroNode := by
    rw [readNode_writeEnt_ne _ hne, readNode_writeEnt_self _ (by simp [List.length_append])]
  rw [setNodeAt_of_read _ base]
  rw [setNodeAt_of_read _ (readNode_writeEnt_self _ (by simp [List.length_append]))]
  rw [setNodeAt_of_read _ (readNode_writeEnt_self _ (by simp [List.length_append]))]
  rw [setNodeAt_of_read _ (readNode_writeEnt_self _ (by simp [List.length_append]))]
  rw [writeEnt_writeEnt, writeEnt_writeEnt, writeEnt_writeEnt]
  unfold cnFinal
  congr 2

theorem create_node_run {h : Heap} {p : Addr} (path : List Nat) (g : Node) {pn : Node}
    (hp : readNode h p = some pn) :
    create_node h (some p) path (some g) =
      Except.ok (some h.length, cnFinal h p path g pn) := by
  unfold create_node
  simp only [hp]
  rw [create_node_trace_last path g hp]

theorem cnFinal_readNode_fresh (h : Heap) (p : Addr) (path : List Nat) (g : Node) (pn : Node) :
    readNode (cnFinal h p path g pn) h.length = some (createdNode p path) := by
  unfold cnFinal
  exact readNode_writeEnt_self _ (by simp [List.length_append])

theorem cnFinal_readNode_parent {h : Heap} {p : Addr} (path : List Nat) (g : Node) (pn : Node)
    (hlt : p < h.length) :
    readNode (cnFinal h p path g pn) p = some { pn with west := some h.length } := by
  have hne : p ≠ h.length := Nat.ne_of_lt hlt
  unfold cnFinal
  rw [readNode_writeEnt_ne _ (Ne.symm hne)]
  refine readNode_writeEnt_self _ ?_
  rw [length_writeEnt, List.length_append]
  exact Nat.lt_of_lt_of_le hlt (Nat.le_add_right _ _)

theorem cnFinal_read_other {h : Heap} {p : Addr} (path : List Nat) (g : Node) (pn : Node)
    {b : Addr} (hbp : b ≠ p) (hbf : b ≠ h.length) :
    (cnFinal h p path g pn)[b]? = h[b]? := by
  unfold cnFinal writeEnt
  rw [List.getElem?_set_ne (Ne.symm hbf), List.getElem?_set_ne (Ne.symm hbp),
    List.getElem?_set_ne (Ne.symm hbf)]
  rcases Nat.lt_or_ge b h.length with hb | hb
  · rw [List.getElem?_append_left hb]
  · have h1 : h[b]? = none := List.getElem?_eq_none hb
    have h2 : (h ++ [Entity.node g])[b]? = none := by
      refine List.getElem?_eq_none ?_
      rw [List.length_append]
      simp only [List.length_cons, List.length_nil]
      exact Nat.lt_of_le_of_ne hb (Ne.symm hbf)
    rw [h1, h2]

theorem cnFinal_length (h : Heap) (p : Addr) (path : List Nat) (g : Node) (pn : Node) :
    (cnFinal h p path g pn).length = h.length + 1 := by
  simp [cnFinal, List.length_append]

/-- Final heap of a fully successful create_leaf appending to an empty
chain: garbage leaf appended, parent's east head linked to it, finished
record written at the fresh address. -/
def clFinalEmpty (h : Heap) (p : Addr) (key : List Nat) (count : Nat) (valMem : List Nat)
    (g : Leaf) (pn : Node) : Heap :=
  writeEnt (writeEnt (h ++ [Entity.leaf g]) p (Entity.node { pn with east := some h.length }))
    h.length (Entity.leaf (createdLeaf (some p) key count valMem))

/-- Final heap of a fully successful create_leaf appending after the
previous tail at address la. -/
def clFinalTail (h : Heap) (la : Addr) (key : List Nat) (count : Nat) (valMem : List Nat)
    (g : Leaf) (ll : Leaf) : Heap :=
  writeEnt (writeEnt (h ++ [Entity.leaf g]) la (Entity.leaf { ll with east := some h.length }))
    h.length (Entity.leaf (createdLeaf (some la) key count valMem))

/-- Heap at the moment the zero() assert stops create_leaf because the value
malloc failed, empty-chain case: the partially built record is already
linked in. -/
def clHaltEmpty (h : Heap) (p : Addr) (key : List Nat) (g : Leaf) (pn : Node) : Heap :=
  writeEnt (writeEnt (h ++ [Entity.leaf g]) p (Entity.node { pn with east := some h.length }))
    h.length (Entity.leaf (haltedLeaf (some p) key))

/-- Heap at the moment the zero() assert stops create_leaf because the value
malloc failed, previous-tail case. -/
def clHaltTail (h : Heap) (la : Addr) (key : List Nat) (g : Leaf) (ll : Leaf) : Heap :=
  writeEnt (writeEnt (h ++ [Entity.leaf g]) la (Entity.leaf { ll with east := some h.length }))
    h.length (Entity.leaf (haltedLeaf (some la) key))

theorem create_leaf_trace_last_empty {h : Heap} {p : Addr} (key : List Nat) (count : Nat)
    (valMem : List Nat) (g : Leaf) {pn : Node} (hp : readNode h p = some pn) :
    (create_leaf_trace h p none key count valMem g true).getLastD h =
      clFinalEmpty h p key count valMem g pn := by
  have hlt : p < h.length := readNode_lt hp
  have hne : p ≠ h.length := Nat.ne_of_lt hlt
  have r1 : readNode (h ++ [Entity.leaf g]) p = some pn := by
    rw [readNode_append_lt _ hlt, hp]
  unfold create_leaf_trace
  simp only [if_true, List.getLastD, Option.getD]
  rw [setNodeAt_of_read _ r1]
  have r2 : readLeaf (writeEnt (h ++ [Entity.leaf g]) p
      (Entity.node { pn with east := some h.length })) h.length = some g := by
    rw [readLeaf_writeEnt_ne _ hne, readLeaf_append_self]
  rw [setLeafAt_of_read _ r2]
  rw [setLeafAt_of_read _ (readLeaf_writeEnt_self _ (by simp [List.length_append]))]
  rw [setLeafAt_of_read _ (readLeaf_writeEnt_self _ (by simp [List.length_append]))]
  rw [setLeafAt_of_read _ (readLeaf_writeEnt_self _ (by simp [List.length_append]))]
  rw [setLeafAt_of_read _ (readLeaf_writeEnt_self _ (by simp [List.length_append]))]
  rw [setLeafAt_of_read _ (readLeaf_writeEnt_self _ (by simp [List.length_append]))]
  rw [setLeafAt_of_read _ (readLeaf_writeEnt_self _ (by simp [List.length_append]))]
  rw [writeEnt_writeEnt, writeEnt_writeEnt, writeEnt_writeEnt, writeEnt_writeEnt,
    writeEnt_writeEnt, writeEnt_writeEnt]
  unfold clFinalEmpty
  congr 2

theorem create_leaf_trace_last_tail {h : Heap} {p la : Addr} (key : List Nat) (count : Nat)
    (valMem : List Nat) (g : Leaf) {ll : Leaf} (hll : readLeaf h la = some ll) :
    (create_leaf_trace h p (some la) key count valMem g true).getLastD h =
      clFinalTail h la key count valMem g ll := by
  have hlt : la < h.length := readLeaf_lt hll
  have hne : la ≠ h.length := Nat.ne_of_lt hlt
  have r1 : readLeaf (h ++ [Entity.leaf g]) la = some ll := by
    rw [readLeaf_append_lt _ hlt, hll]
  unfold create_leaf_trace
  simp only [if_true, List.getLastD, Option.getD]
  rw [setLeafAt_of_read _ r1]
  have r2 : readLeaf (writeEnt (h ++ [Entity.leaf g]) la
      (Entity.leaf { ll with east := some h.length })) h.length = some g := by
    rw [readLeaf_writeEnt_ne _ hne, readLeaf_append_self]
  rw [setLeafAt_of_read _ r2]
  rw [setLeafAt_of_read _ (readLeaf_writeEnt_self _ (by simp [List.length_append]))]
  rw [setLeafAt_of_read _ (readLeaf_writeEnt_self _ (by simp [List.length_append]))]
  rw [setLeafAt_of_read _ (readLeaf_writeEnt_self _ (by simp [List.length_append]))]
  rw [setLeafAt_of_read _ (readLeaf_writeEnt_self _ (by simp [List.length_append]))]
  rw [setLeafAt_of_read _ (readLeaf_writeEnt_self _ (by simp [List.length_append]))]
  rw [setLeafAt_of_read _ (readLeaf_writeEnt_self _ (by simp [List.length_append]))]
  rw [writeEnt_writeEnt, writeEnt_writeEnt, writeEnt_writeEnt, writeEnt_writeEnt,
    writeEnt_writeEnt, writeEnt_writeEnt]
  unfold clFinalTail
  congr 2

theorem create_leaf_trace_halt_empty {h : Heap} {p : Addr} (key : List Nat) (count : Nat)
    (valMem : List Nat) (g : Leaf) {pn : Node} (hp : readNode h p = some pn) :
    (create_leaf_trace h p none key count valMem g false).getLastD h =
      clHaltEmpty h p key g pn := by
  have hlt : p < h.length := readNode_lt hp
  have hne : p ≠ h.length := Nat.ne_of_lt hlt
  have r1 : readNode (h ++ [Entity.leaf g]) p = some pn := by
    rw [readNode_append_lt _ hlt, hp]
  unfold create_leaf_trace
  simp only [if_false, Bool.false_eq_true, List.getLastD, Option.getD]
  rw [setNodeAt_of_read _ r1]
  have r2 : readLeaf (writeEnt (h ++ [Entity.leaf g]) p
      (Entity.node { pn with east := some h.length })) h.length = some g := by
    rw [readLeaf_writeEnt_ne _ hne, readLeaf_append_self]
  rw [setLeafAt_of_read _ r2]
  rw [setLeafAt_of_read _ (readLeaf_writeEnt_self _ (by simp [List.length_append]))]
  rw [setLeafAt_of_read _ (readLeaf_writeEnt_self _ (by simp [List.length_append]))]
  rw [setLeafAt_of_read _ (readLeaf_writeEnt_self _ (by simp [List.length_append]))]
  rw [setLeafAt_of_read _ (readLeaf_writeEnt_self _ (by simp [List.length_append]))]
  rw [writeEnt_writeEnt, writeEnt_writeEnt, writeEnt_writeEnt, writeEnt_writeEnt]
  unfold clHaltEmpty
  congr 2

theorem create_leaf_trace_halt_tail {h : Heap} {p la : Addr} (key : List Nat) (count : Nat)
    (valMem : List Nat) (g : Leaf) {ll : Leaf} (hll : readLeaf h la = some ll) :
    (create_leaf_trace h p (some la) key count valMem g false).getLastD h =
      clHaltTail h la key g ll := by
  have hlt : la < h.length := readLeaf_lt hll
  have hne : la ≠ h.length := Nat.ne_of_lt hlt
  have r1 : readLeaf (h ++ [Entity.leaf g]) la = some ll := by
    rw [readLeaf_append_lt _ hlt, hll]
  unfold create_leaf_trace
  simp only [if_false, Bool.false_eq_true, List.getLastD, Option.getD]
  rw [setLeafAt_of_read _ r1]
  have r2 : readLeaf (writeEnt (h ++ [Entity.leaf g]) la
      (Entity.leaf { ll with east := some h.length })) h.length = some g := by
    rw [readLeaf_writeEnt_ne _ hne, readLeaf_append_self]
  rw [setLeafAt_of_read _ r2]
  rw [setLeafAt_of_read _ (readLeaf_writeEnt_self _ (by simp [List.length_append]))]
  rw [setLeafAt_of_read _ (readLeaf_writeEnt_self _ (by simp [List.length_append]))]
  rw [setLeafAt_of_read _ (readLeaf_writeEnt_self _ (by simp [List.length_append]))]
  rw [setLeafAt_of_read _ (readLeaf_writeEnt_self _ (by simp [List.length_append]))]
  rw [writeEnt_writeEnt, writeEnt_writeEnt, writeEnt_writeEnt, writeEnt_writeEnt]
  unfold clHaltTail
  congr 2

theorem find_last_empty {h : Heap} {p : Addr} {pn : Node} (hp : readNode h p = some pn)
    (he : pn.east = none) : find_last h (some p) = Except.ok none := by
  unfold find_last find_last_linear
  simp only [hp, he]

theorem create_leaf_run_empty {h : Heap} {p : Addr} (key : List Nat) (count : Nat)
    (valMem : List Nat) (g : Leaf) {pn : Node} (hp : readNode h p = some pn)
    (he : pn.east = none) :
    create_leaf h (some p) key count valMem (some g) true =
      Except.ok (none, clFinalEmpty h p key count valMem g pn) := by
  unfold create_leaf
  simp only [find_last_empty hp he, if_true]
  rw [create_leaf_trace_last_empty key count valMem g hp]

theorem create_leaf_run_tail {h : Heap} {p la : Addr} (key : List Nat) (count : Nat)
    (valMem : List Nat) (g : Leaf) {ll : Leaf}
    (hfl : find_last h (some p) = Except.ok (some la)) (hll : readLeaf h la = some ll) :
    create_leaf h (some p) key count valMem (some g) true =
      Except.ok (some la, clFinalTail h la key count valMem g ll) := by
  unfold create_leaf
  simp only [hfl, if_true]
  rw [create_leaf_trace_last_tail key count valMem g hll]

theorem create_leaf_halt_run_empty {h : Heap} {p : Addr} (key : List Nat) (count : Nat)
    (valMem : List Nat) (g : Leaf) {pn : Node} (hp : readNode h p = some pn)
    (he : pn.east = none) :
    create_leaf h (some p) key count valMem (some g) false =
      Except.error (Fault.zeroAssertNull, clHaltEmpty h p key g pn) := by
  unfold create_leaf
  simp only [find_last_empty hp he, if_false, Bool.false_eq_true]
  rw [create_leaf_trace_halt_empty key count valMem g hp]

theorem create_leaf_halt_run_tail {h : Heap} {p la : Addr} (key : List Nat) (count : Nat)
    (valMem : List Nat) (g : Leaf) {ll : Leaf}
    (hfl : find_last h (some p) = Except.ok (some la)) (hll : readLeaf h la = some ll) :
    create_leaf h (some p) key count valMem (some g) false =
      Except.error (Fault.zeroAssertNull, clHaltTail h la key g ll) := by
  unfold create_leaf
  simp only [hfl, if_false, Bool.false_eq_true]
  rw [create_leaf_trace_halt_tail key count valMem g hll]

theorem create_leaf_allocfail {h : Heap} {p : Addr} (key : List Nat) (count : Nat)
    (valMem : List Nat) (allocValue : Bool) {prev : Option Addr}
    (hfl : find_last h (some p) = Except.ok prev) :
    create_leaf h (some p) key count valMem none allocValue =
      Except.error (Fault.newLeafAssert, h) := by
  unfold create_leaf
  simp only [hfl]

/-! Chain lemmas: a NUL-terminated east chain is uniquely determined by its
starting pointer, repeats no address, hence fits in the heap, so the
fuel-bounded walk of find_last_linear reaches its last element. -/

theorem chain_cons_elim {h : Heap} {a b : Addr} {rest : List Addr}
    (hch : chainFromB h (some a) (b :: rest) = true) :
    a = b ∧ ∃ l, readLeaf h a = some l ∧ chainFromB h l.east rest = true := by
  unfold chainFromB at hch
  rcases hl : readLeaf h a with _ | l
  · rw [hl] at hch
    simp at hch
  · rw [hl] at hch
    simp only [Bool.and_eq_true, decide_eq_true_eq] at hch
    exact ⟨hch.1, l, rfl, hch.2⟩

theorem chain_mem_lt {h : Heap} : ∀ {as : List Addr} {o : Option Addr},
    chainFromB h o as = true → ∀ x ∈ as, x < h.length := by
  intro as
  induction as with
  | nil => intro o _ x hx; exact absurd hx (List.not_mem_nil x)
  | cons b rest ih =>
    intro o hch x hx
    rcases o with _ | a
    · exact absurd hch (by simp [chainFromB])
    · obtain ⟨hab, l, hl, hrest⟩ := chain_cons_elim hch
      rcases List.mem_cons.mp hx with hxb | hxr
      · subst hxb
        rw [← hab]
        exact readLeaf_lt hl
      · exact ih hrest x hxr

theorem chain_last_east {h : Heap} : ∀ {as : List Addr} {o : Option Addr},
    chainFromB h o as = true → ∀ r, as.getLast? = some r →
    (readLeaf h r).map Leaf.east = some none := by
  intro as
  induction as with
  | nil => intro o _ r hr; exact absurd hr (by simp)
  | cons b rest ih =>
    intro o hch r hr
    rcases o with _ | a
    · exact absurd hch (by simp [chainFromB])
    · obtain ⟨hab, l, hl, hrest⟩ := chain_cons_elim hch
      rcases rest with _ | ⟨c, t⟩
      · have hrb : b = r := by simpa using hr
        have hen : l.east = none := by
          rcases he : l.east with _ | a2
          · rfl
          · rw [he] at hrest
            exact absurd hrest (by simp [chainFromB])
        rw [← hrb, ← hab, hl]
        simp [hen]
      · rw [List.getLast?_cons_cons] at hr
        exact ih hrest r hr

theorem chase_of_chain {h : Heap} : ∀ {as : List Addr} {a : Addr} {fuel : Nat},
    chainFromB h (some a) as = true → as.length ≤ fuel →
    chase h fuel a = Except.ok (as.getLastD 0) := by
  intro as
  induction as with
  | nil => intro a fuel hch _; exact absurd hch (by simp [chainFromB])
  | cons b rest ih =>
    intro a fuel hch hlen
    obtain ⟨hab, l, hl, hrest⟩ := chain_cons_elim hch
    rcases fuel with _ | f
    · exact absurd hlen (by simp)
    · rcases rest with _ | ⟨c, t⟩
      · have hen : l.east = none := by
          rcases he : l.east with _ | a2
          · rfl
          · rw [he] at hrest
            exact absurd hrest (by simp [chainFromB])
        subst hab
        simp only [chase, hl, hen, List.getLastD_cons, List.getLastD_nil]
      · have hec : l.east = some c := by
          rcases he : l.east with _ | a2
          · rw [he] at hrest
            exact absurd hrest (by simp [chainFromB])
          · rw [he] at hrest
            obtain ⟨hac, _⟩ := chain_cons_elim hrest
            simp only [he, hac]
        have hrest2 : chainFromB h (some c) (c :: t) = true := by
          rw [← hec]
          exact hrest
        have hlen2 : (c :: t).length ≤ f := by
          simp only [List.length_cons] at hlen ⊢
          omega
        simp only [chase, hl, hec]
        rw [ih hrest2 hlen2]
        simp [List.getLastD_cons]

theorem chain_det {h : Heap} : ∀ {as bs : List Addr} {o : Option Addr},
    chainFromB h o as = true → chainFromB h o bs = true → as = bs := by
  intro as
  induction as with
  | nil =>
    intro bs o h1 h2
    rcases o with _ | a
    · rcases bs with _ | ⟨b, t⟩
      · rfl
      · exact absurd h2 (by simp [chainFromB])
    · exact absurd h1 (by simp [chainFromB])
  | cons a rest ih =>
    intro bs o h1 h2
    rcases o with _ | x
    · exact absurd h1 (by simp [chainFromB])
    · rcases bs with _ | ⟨b, t⟩
      · exact absurd h2 (by simp [chainFromB])
      · obtain ⟨hxa, l, hl, hrest⟩ := chain_cons_elim h1
        obtain ⟨hxb, l2, hl2, hrest2⟩ := chain_cons_elim h2
        have hll : l = l2 := by
          rw [hl] at hl2
          exact Option.some.inj hl2
        rw [← hll] at hrest2
        subst hxa
        subst hxb
        rw [ih hrest hrest2]

theorem chain_get_drop {h : Heap} : ∀ {as : List Addr} {o : Option Addr},
    chainFromB h o as = true → ∀ (i : Nat) (hi : i < as.length),
    chainFromB h (some (as.get ⟨i, hi⟩)) (as.drop i) = true := by
  intro as
  induction as with
  | nil => intro o _ i hi; exact absurd hi (by simp)
  | cons a rest ih =>
    intro o hch i hi
    rcases o with _ | x
    · exact absurd hch (by simp [chainFromB])
    · obtain ⟨hxa, l, hl, hrest⟩ := chain_cons_elim hch
      rcases i with _ | j
      · subst hxa
        simpa using hch
      · have hj : j < rest.length := by
          simpa using Nat.lt_of_succ_lt_succ hi
        have hstep := ih hrest j hj
        simpa using hstep

theorem chain_nodup {h : Heap} {o : Option Addr} {as : List Addr}
    (hch : chainFromB h o as = true) : as.Nodup := by
  rw [List.nodup_iff_injective_get]
  intro i j hij
  obtain ⟨i, hi⟩ := i
  obtain ⟨j, hj⟩ := j
  have d1 := chain_get_drop hch i hi
  have d2 := chain_get_drop hch j hj
  rw [hij] at d1
  have hd : as.drop i = as.drop j := chain_det d1 d2
  have hsub : as.length - i = as.length - j := by
    have hlen := congrArg List.length hd
    simpa [List.length_drop] using hlen
  have hij2 : i = j := by omega
  subst hij2
  rfl

theorem chain_length_le {h : Heap} {o : Option Addr} {as : List Addr}
    (hch : chainFromB h o as = true) : as.length ≤ h.length := by
  have hnd := chain_nodup hch
  have hsub : as.toFinset ⊆ Finset.range h.length := by
    intro x hx
    exact Finset.mem_range.mpr (chain_mem_lt hch x (List.mem_toFinset.mp hx))
  have hcard := Finset.card_le_card hsub
  rw [Finset.card_range, List.toFinset_card_of_nodup hnd] at hcard
  exact hcard

theorem getLast?_cons_eq_getLastD {b : Addr} {rest : List Addr} :
    (b :: rest).getLast? = some ((b :: rest).getLastD 0) := by
  induction rest generalizing b with
  | nil => rfl
  | cons c t ih =>
    calc (b :: c :: t).getLast? = (c :: t).getLast? := List.getLast?_cons_cons
    _ = some ((c :: t).getLastD 0) := ih
    _ = some ((b :: c :: t).getLastD 0) := by simp [List.getLastD_cons]

theorem find_last_linear_of_chain {h : Heap} {p : Addr} {as : List Addr}
    (hch : isChain h p as = true) :
    find_last_linear h (some p) = Except.ok as.getLast? := by
  unfold isChain at hch
  rcases hpn : readNode h p with _ | pn
  · rw [hpn] at hch
    exact absurd hch (by simp)
  · simp only [hpn] at hch
    unfold find_last_linear
    simp only [hpn]
    rcases he : pn.east with _ | a
    · rw [he] at hch
      rcases as with _ | ⟨b, t⟩
      · rfl
      · exact absurd hch (by simp [chainFromB])
    · rw [he] at hch
      rcases as with _ | ⟨b, t⟩
      · exact absurd hch (by simp [chainFromB])
      · have hlen := chain_length_le hch
        show Except.map some (chase h h.length a) = Except.ok (b :: t).getLast?
        rw [chase_of_chain hch hlen, getLast?_cons_eq_getLastD]
        rfl

theorem find_last_of_chain {h : Heap} {p : Addr} {as : List Addr}
    (hch : isChain h p as = true) :
    find_last h (some p) = Except.ok as.getLast? := by
  unfold find_last
  exact find_last_linear_of_chain hch

/-! String-buffer lemmas: the stored path and key buffers are NUL-terminated
truncations of the input strings. -/

theorem strContent_mem_ne_zero {s : List Nat} : ∀ x ∈ strContent s, x ≠ 0 := by
  intro x hx
  have := List.mem_takeWhile_imp hx
  simpa using this

theorem strContent_append_nul : ∀ (xs : List Nat), (∀ x ∈ xs, x ≠ 0) →
    ∀ ys, strContent (xs ++ 0 :: ys) = xs := by
  intro xs
  induction xs with
  | nil =>
    intro _ ys
    simp [strContent]
  | cons a t ih =>
    intro hx ys
    have ha : a ≠ 0 := hx a (by simp)
    have ht := ih (fun x hxt => hx x (List.mem_cons_of_mem a hxt)) ys
    unfold strContent at ht ⊢
    rw [List.cons_append, List.takeWhile_cons]
    simp only [decide_not] at ht
    simp [ha, decide_not, ht]

theorem length_writeBytes {dst src : List Nat} (hle : src.length ≤ dst.length) :
    (writeBytes dst src).length = dst.length := by
  unfold writeBytes
  rw [List.length_append, List.length_drop]
  omega

theorem length_strncpyChunk (src : List Nat) (n : Nat) :
    (strncpyChunk src n).length = n := by
  unfold strncpyChunk
  rw [List.length_append, List.length_take, List.length_replicate]
  rcases Nat.le_total (strContent src).length n with hle | hle
  · rw [Nat.min_eq_right hle]
    omega
  · rw [Nat.min_eq_left hle]
    omega

theorem strContent_keyBuf (key : List Nat) :
    strContent (writeBytes (List.replicate 128 0) (strncpyChunk key 127)) =
      (strContent key).take 127 := by
  have hlen : (strncpyChunk key 127).length = 127 := length_strncpyChunk key 127
  unfold writeBytes
  rw [hlen, List.drop_replicate]
  unfold strncpyChunk
  rw [List.append_assoc]
  have hrep : List.replicate (127 - (strContent key).length) 0 ++ List.replicate (128 - 127) 0 =
      0 :: List.replicate (127 - (strContent key).length) 0 := by
    rw [← List.replicate_add]
    have : 127 - (strContent key).length + (128 - 127) =
        (127 - (strContent key).length) + 1 := by omega
    rw [this, Nat.add_comm, List.replicate_add]
    simp [List.replicate_succ]
  rw [hrep]
  exact strContent_append_nul _
    (fun x hx => strContent_mem_ne_zero x (List.mem_of_mem_take hx)) _

theorem strContent_pathBuf (path : List Nat) :
    strContent (snprintfBuf (List.replicate 256 0) 256 path) =
      (strContent path).take 255 := by
  unfold snprintfBuf writeBytes
  rw [List.append_assoc, List.singleton_append]
  exact strContent_append_nul _
    (fun x hx => strContent_mem_ne_zero x (List.mem_of_mem_take hx)) _

theorem length_keyBuf (key : List Nat) :
    (writeBytes (List.replicate 128 0) (strncpyChunk key 127)).length = 128 := by
  have h1 := length_strncpyChunk key 127
  have : (strncpyChunk key 127).length ≤ (List.replicate 128 0 : List Nat).length := by
    rw [h1, List.length_replicate]
    omega
  rw [length_writeBytes this, List.length_replicate]

theorem length_pathBuf (path : List Nat) :
    (snprintfBuf (List.replicate 256 0) 256 path).length = 256 := by
  unfold snprintfBuf
  have hle : ((strContent path).take (256 - 1) ++ [0]).length ≤
      (List.replicate 256 0 : List Nat).length := by
    rw [List.length_append, List.length_take, List.length_replicate]
    simp only [List.length_cons, List.length_nil]
    rcases Nat.le_total (strContent path).length 255 with hle | hle
    · rw [Nat.min_eq_right hle]
      omega
    · rw [Nat.min_eq_left (by omega : (255 : Nat) ≤ (strContent path).length)]
  rw [length_writeBytes hle, List.length_replicate]

/-! Read-back lemmas for the create_leaf result heaps. -/

theorem clFinalEmpty_read_parent {h : Heap} {p : Addr} (key : List Nat) (count : Nat)
    (valMem : List Nat) (g : Leaf) (pn : Node) (hlt : p < h.length) :
    readNode (clFinalEmpty h p key count valMem g pn) p =
      some { pn with east := some h.length } := by
  unfold clFinalEmpty
  rw [readNode_writeEnt_ne _ (Ne.symm (Nat.ne_of_lt hlt))]
  refine readNode_writeEnt_self _ ?_
  rw [List.length_append]
  exact Nat.lt_of_lt_of_le hlt (Nat.le_add_right _ _)

theorem clFinalEmpty_read_fresh {h : Heap} {p : Addr} (key : List Nat) (count : Nat)
    (valMem : List Nat) (g : Leaf) (pn : Node) :
    readLeaf (clFinalEmpty h p key count valMem g pn) h.length =
      some (createdLeaf (some p) key count valMem) := by
  unfold clFinalEmpty
  refine readLeaf_writeEnt_self _ ?_
  rw [length_writeEnt, List.length_append]
  simp

theorem clFinalEmpty_read_other {h : Heap} {p : Addr} (key : List Nat) (count : Nat)
    (valMem : List Nat) (g : Leaf) (pn : Node) {b : Addr} (hbp : b ≠ p) (hbf : b ≠ h.length) :
    (clFinalEmpty h p key count valMem g pn)[b]? = h[b]? := by
  unfold clFinalEmpty writeEnt
  rw [List.getElem?_set_ne (Ne.symm hbf), List.getElem?_set_ne (Ne.symm hbp)]
  rcases Nat.lt_or_ge b h.length with hb | hb
  · rw [List.getElem?_append_left hb]
  · have h1 : h[b]? = none := List.getElem?_eq_none hb
    have h2 : (h ++ [Entity.leaf g])[b]? = none := by
      refine List.getElem?_eq_none ?_
      rw [List.length_append]
      simp only [List.length_cons, List.length_nil]
      exact Nat.lt_of_le_of_ne hb (Ne.symm hbf)
    rw [h1, h2]

theorem clFinalEmpty_length (h : Heap) (p : Addr) (key : List Nat) (count : Nat)
    (valMem : List Nat) (g : Leaf) (pn : Node) :
    (clFinalEmpty h p key count valMem g pn).length = h.length + 1 := by
  simp [clFinalEmpty, List.length_append]

theorem clFinalTail_read_tail {h : Heap} {la : Addr} (key : List Nat) (count : Nat)
    (valMem : List Nat) (g : Leaf) (ll : Leaf) (hlt : la < h.length) :
    readLeaf (clFinalTail h la key count valMem g ll) la =
      some { ll with east := some h.length } := by
  unfold clFinalTail
  rw [readLeaf_writeEnt_ne _ (Ne.symm (Nat.ne_of_lt hlt))]
  refine readLeaf_writeEnt_self _ ?_
  rw [List.length_append]
  exact Nat.lt_of_lt_of_le hlt (Nat.le_add_right _ _)

theorem clFinalTail_read_fresh {h : Heap} {la : Addr} (key : List Nat) (count : Nat)
    (valMem : List Nat) (g : Leaf) (ll : Leaf) :
    readLeaf (clFinalTail h la key count valMem g ll) h.length =
      some (createdLeaf (some la) key count valMem) := by
  unfold clFinalTail
  refine readLeaf_writeEnt_self _ ?_
  rw [length_writeEnt, List.length_append]
  simp

theorem clFinalTail_read_other {h : Heap} {la : Addr} (key : List Nat) (count : Nat)
    (valMem : List Nat) (g : Leaf) (ll : Leaf) {b : Addr} (hbl : b ≠ la) (hbf : b ≠ h.length) :
    (clFinalTail h la key count valMem g ll)[b]? = h[b]? := by
  unfold clFinalTail writeEnt
  rw [List.getElem?_set_ne (Ne.symm hbf), List.getElem?_set_ne (Ne.symm hbl)]
  rcases Nat.lt_or_ge b h.length with hb | hb
  · rw [List.getElem?_append_left hb]
  · have h1 : h[b]? = none := List.getElem?_eq_none hb
    have h2 : (h ++ [Entity.leaf g])[b]? = none := by
      refine List.getElem?_eq_none ?_
      rw [List.length_append]
      simp only [List.length_cons, List.length_nil]
      exact Nat.lt_of_le_of_ne hb (Ne.symm hbf)
    rw [h1, h2]

theorem clFinalTail_length (h : Heap) (la : Addr) (key : List Nat) (count : Nat)
    (valMem : List Nat) (g : Leaf) (ll : Leaf) :
    (clFinalTail h la key count valMem g ll).length = h.length + 1 := by
  simp [clFinalTail, List.length_append]

theorem clHaltEmpty_read_parent {h : Heap} {p : Addr} (key : List Nat) (g : Leaf) (pn : Node)
    (hlt : p < h.length) :
    readNode (clHaltEmpty h p key g pn) p = some { pn with east := some h.length } := by
  unfold clHaltEmpty
  rw [readNode_writeEnt_ne _ (Ne.symm (Nat.ne_of_lt hlt))]
  refine readNode_writeEnt_self _ ?_
  rw [List.length_append]
  exact Nat.lt_of_lt_of_le hlt (Nat.le_add_right _ _)

theorem clHaltEmpty_read_fresh {h : Heap} {p : Addr} (key : List Nat) (g : Leaf) (pn : Node) :
    readLeaf (clHaltEmpty h p key g pn) h.length = some (haltedLeaf (some p) key) := by
  unfold clHaltEmpty
  refine readLeaf_writeEnt_self _ ?_
  rw [length_writeEnt, List.length_append]
  simp

theorem clHaltEmpty_length (h : Heap) (p : Addr) (key : List Nat) (g : Leaf) (pn : Node) :
    (clHaltEmpty h p key g pn).length = h.length + 1 := by
  simp [clHaltEmpty, List.length_append]

theorem readNode_of_getElem_eq {h1 h2 : Heap} {b : Addr} (he : h1[b]? = h2[b]?) :
    readNode h1 b = readNode h2 b := by
  unfold readNode
  rw [he]

theorem readLeaf_of_getElem_eq {h1 h2 : Heap} {b : Addr} (he : h1[b]? = h2[b]?) :
    readLeaf h1 b = readLeaf h2 b := by
  unfold readLeaf
  rw [he]

/-! Intermediate trace states: both operations link the fresh entity into
the reachable structure before assigning its tag. -/

theorem create_node_trace_get2 {h : Heap} {p : Addr} (path : List Nat) (g : Node) {pn : Node}
    (hp : readNode h p = some pn) :
    (create_node_trace h p path g)[2]? =
      some (writeEnt (writeEnt (h ++ [Entity.node g]) h.length (Entity.node zeroNode)) p
        (Entity.node { pn with west := some h.length })) := by
  have hlt : p < h.length := readNode_lt hp
  have hstart : (create_node_trace h p path g)[2]? =
      some (setNodeAt (setNodeAt (h ++ [Entity.node g]) h.length (fun _ => zeroNode)) p
        (fun pn => { pn with west := some h.length })) := rfl
  rw [hstart, setNodeAt_of_read _ (readNode_append_self h g)]
  have r2 : readNode (writeEnt (h ++ [Entity.node g]) h.length (Entity.node zeroNode)) p
      = some pn := by
    rw [readNode_writeEnt_ne _ (Ne.symm (Nat.ne_of_lt hlt)), readNode_append_lt _ hlt, hp]
  rw [setNodeAt_of_read _ r2]

theorem create_leaf_trace_get2 {h : Heap} {p : Addr} (key : List Nat) (count : Nat)
    (valMem : List Nat) (g : Leaf) (allocValue : Bool) {pn : Node}
    (hp : readNode h p = some pn) :
    (create_leaf_trace h p none key count valMem g allocValue)[2]? =
      some (writeEnt (writeEnt (h ++ [Entity.leaf g]) p
        (Entity.node { pn with east := some h.length })) h.length (Entity.leaf zeroLeaf)) := by
  have hlt : p < h.length := readNode_lt hp
  have r1 : readNode (h ++ [Entity.leaf g]) p = some pn := by
    rw [readNode_append_lt _ hlt, hp]
  have hstart : (create_leaf_trace h p none key count valMem g allocValue)[2]? =
      some (setLeafAt (setNodeAt (h ++ [Entity.leaf g]) p
        (fun pn => { pn with east := some h.length })) h.length (fun _ => zeroLeaf)) := by
    cases allocValue
    · rfl
    · rfl
  rw [hstart, setNodeAt_of_read _ r1]
  have r2 : readLeaf (writeEnt (h ++ [Entity.leaf g]) p
      (Entity.node { pn with east := some h.length })) h.length = some g := by
    rw [readLeaf_writeEnt_ne _ (Nat.ne_of_lt hlt), readLeaf_append_self]
  rw [setLeafAt_of_read _ r2]

/-! Small chain utilities used by the claim theorems. -/

theorem isChain_elim {h : Heap} {p : Addr} {as : List Addr} (hch : isChain h p as = true) :
    ∃ pn, readNode h p = some pn ∧ chainFromB h pn.east as = true := by
  unfold isChain at hch
  rcases hpn : readNode h p with _ | pn
  · rw [hpn] at hch
    exact absurd hch (by simp)
  · simp only [hpn] at hch
    exact ⟨pn, rfl, hch⟩

theorem mem_of_getLast?_addr : ∀ (as : List Addr) (r : Addr), as.getLast? = some r → r ∈ as := by
  intro as
  induction as with
  | nil => intro r hr; exact absurd hr (by simp)
  | cons a t ih =>
    intro r hr
    rcases t with _ | ⟨b, u⟩
    · have : a = r := by simpa using hr
      subst this
      exact List.mem_singleton_self a
    · rw [List.getLast?_cons_cons] at hr
      exact List.mem_cons_of_mem a (ih r hr)

theorem chain_getLast_lt {h : Heap} {p : Addr} {as : List Addr} {r : Addr}
    (hch : isChain h p as = true) (hr : as.getLast? = some r) : r < h.length := by
  obtain ⟨pn, _, hcf⟩ := isChain_elim hch
  exact chain_mem_lt hcf r (mem_of_getLast?_addr as r hr)

theorem chain_mem_readLeaf {h : Heap} : ∀ {as : List Addr} {o : Option Addr},
    chainFromB h o as = true → ∀ x ∈ as, ∃ l, readLeaf h x = some l := by
  intro as
  induction as with
  | nil => intro o _ x hx; exact absurd hx (List.not_mem_nil x)
  | cons b rest ih =>
    intro o hch x hx
    rcases o with _ | a
    · exact absurd hch (by simp [chainFromB])
    · obtain ⟨hab, l, hl, hrest⟩ := chain_cons_elim hch
      rcases List.mem_cons.mp hx with hxb | hxr
      · subst hxb
        exact ⟨l, by rw [← hab]; exact hl⟩
      · exact ih hrest x hxr

theorem chain_empty_east {h : Heap} {p : Addr} {pn : Node}
    (hp : readNode h p = some pn) (hch : isChain h p [] = true) : pn.east = none := by
  obtain ⟨pn2, hpn2, hcf⟩ := isChain_elim hch
  rw [hp] at hpn2
  rw [← Option.some.inj hpn2] at hcf
  rcases he2 : pn.east with _ | a
  · rfl
  · rw [he2] at hcf
    exact absurd hcf (by simp [chainFromB])

theorem chain_getLast_readLeaf {h : Heap} {p : Addr} {as : List Addr} {la : Addr}
    (hch : isChain h p as = true) (hla : as.getLast? = some la) :
    ∃ ll, readLeaf h la = some ll := by
  obtain ⟨pn, _, hcf⟩ := isChain_elim hch
  exact chain_mem_readLeaf hcf la (mem_of_getLast?_addr as la hla)

/-- The fresh record a fully successful create_leaf leaves behind, for an
arbitrary pre-call chain: its back pointer is the previous tail when the
chain was non-empty and the parent container otherwise. -/
theorem afterCreateLeaf_read_fresh_of_chain {h : Heap} {p : Addr} {as : List Addr}
    (key : List Nat) (count : Nat) (valMem : List Nat) (g : Leaf)
    (hch : isChain h p as = true) :
    readLeaf (afterCreateLeaf h p key count valMem g) h.length
      = some (createdLeaf (some (as.getLastD p)) key count valMem) := by
  obtain ⟨pn, hpn, hcf⟩ := isChain_elim hch
  rcases has : as with _ | ⟨b, t⟩
  · have he : pn.east = none := chain_empty_east hpn (has ▸ hch)
    have run1 := create_leaf_run_empty key count valMem g hpn he
    have hH : afterCreateLeaf h p key count valMem g
        = clFinalEmpty h p key count valMem g pn := by
      unfold afterCreateLeaf okHeap
      rw [run1]
    rw [hH]
    exact clFinalEmpty_read_fresh key count valMem g pn
  · have hgl : (b :: t).getLast? = some ((b :: t).getLastD 0) := getLast?_cons_eq_getLastD
    have hch2 : isChain h p (b :: t) = true := has ▸ hch
    have hfl : find_last h (some p) = Except.ok (some ((b :: t).getLastD 0)) := by
      rw [find_last_of_chain hch2, hgl]
    obtain ⟨ll, hll⟩ := chain_getLast_readLeaf hch2 hgl
    have run2 := create_leaf_run_tail key count valMem g hfl hll
    have hH : afterCreateLeaf h p key count valMem g
        = clFinalTail h ((b :: t).getLastD 0) key count valMem g ll := by
      unfold afterCreateLeaf okHeap
      rw [run2]
    rw [hH, clFinalTail_read_fresh key count valMem g ll]
    have hdd : (b :: t).getLastD p = (b :: t).getLastD 0 := by
      rw [List.getLastD_cons, List.getLastD_cons]
    rw [hdd]

theorem clHaltTail_read_tail {h : Heap} {la : Addr} (key : List Nat) (g : Leaf) (ll : Leaf)
    (hlt : la < h.length) :
    readLeaf (clHaltTail h la key g ll) la = some { ll with east := some h.length } := by
  unfold clHaltTail
  rw [readLeaf_writeEnt_ne _ (Ne.symm (Nat.ne_of_lt hlt))]
  refine readLeaf_writeEnt_self _ ?_
  rw [List.length_append]
  exact Nat.lt_of_lt_of_le hlt (Nat.le_add_right _ _)

theorem clHaltTail_read_fresh {h : Heap} {la : Addr} (key : List Nat) (g : Leaf) (ll : Leaf) :
    readLeaf (clHaltTail h la key g ll) h.length = some (haltedLeaf (some la) key) := by
  unfold clHaltTail
  refine readLeaf_writeEnt_self _ ?_
  rw [length_writeEnt, List.length_append]
  simp

theorem clHaltTail_length (h : Heap) (la : Addr) (key : List Nat) (g : Leaf) (ll : Leaf) :
    (clHaltTail h la key g ll).length = h.length + 1 := by
  simp [clHaltTail, List.length_append]

theorem create_leaf_trace_get2_tail {h : Heap} {p la : Addr} (key : List Nat) (count : Nat)
    (valMem : List Nat) (g : Leaf) (allocValue : Bool) {ll : Leaf}
    (hll : readLeaf h la = some ll) :
    (create_leaf_trace h p (some la) key count valMem g allocValue)[2]? =
      some (writeEnt (writeEnt (h ++ [Entity.leaf g]) la
        (Entity.leaf { ll with east := some h.length })) h.length (Entity.leaf zeroLeaf)) := by
  have hlt : la < h.length := readLeaf_lt hll
  have r1 : readLeaf (h ++ [Entity.leaf g]) la = some ll := by
    rw [readLeaf_append_lt _ hlt, hll]
  have hstart : (create_leaf_trace h p (some la) key count valMem g allocValue)[2]? =
      some (setLeafAt (setLeafAt (h ++ [Entity.leaf g]) la
        (fun l2 => { l2 with east := some h.length })) h.length (fun _ => zeroLeaf)) := by
    cases allocValue
    · rfl
    · rfl
  rw [hstart, setLeafAt_of_read _ r1]
  have r2 : readLeaf (writeEnt (h ++ [Entity.leaf g]) la
      (Entity.leaf { ll with east := some h.length })) h.length = some g := by
    rw [readLeaf_writeEnt_ne _ (Nat.ne_of_lt hlt), readLeaf_append_self]
  rw [setLeafAt_of_read _ r2]

/-! Concrete inputs for witnesses and counterexamples: the heap main.c builds
(root at address 0, the demo container at address 1), and the heap after one
appended record (at address 2). -/

/-- The heap after main's create_node call: root at 0, its child container
at 1 with an empty leaf chain. -/
def demoHeap : Heap := afterCreateNode initHeap 0 [] zeroNode

/-- The heap after additionally appending one record to the container at 1. -/
def demoLeafHeap : Heap := afterCreateLeaf demoHeap 1 [107, 49] 3 [1, 2, 3] zeroLeaf

/-- Key, size and value-buffer fields of the leaf at address a in the heap an
operation returned (none when the operation did not return a heap). -/
def leafObsAfter (r : Except (Fault × Heap) (Option Addr × Heap)) (a : Addr) :
    Option (List Nat × Nat × Option (List Nat)) :=
  match r with
  | Except.ok (_, h2) => (readLeaf h2 a).map (fun l => (strContent l.key, l.size, l.value))
  | Except.error _ => none

/-- C1: the round-trip property fails on the code.  create_leaf's value
parameter is a single uint8_t byte, and line 136 of main.c copies the string
at the memory address that byte denotes, so a caller cannot pass the value
bytes [1,2,3] at all.  Evaluating the code at the failing input (key "k1",
count 3, with the forged address holding an empty string, so valMem = []):
the stored key and size round-trip, but the value buffer holds [0,0,0], not
[1,2,3]. -/
theorem c1_value_not_roundtripped :
    leafObsAfter (create_leaf demoHeap (some 1) [107, 49] 3 [] (some zeroLeaf) true) 2
      = some ([107, 49], 3, some [0, 0, 0]) ∧ ([0, 0, 0] : List Nat) ≠ [1, 2, 3] :=
  ⟨rfl, by decide⟩

/-- C2: a successful create_leaf call returns the chain tail from before the
call - the empty result (NULL) when the chain was empty - and never the
freshly created record (whose address is the pre-call heap length). -/
theorem c2_returns_previous_tail (h : Heap) (p : Addr) (key : List Nat) (count : Nat)
    (valMem : List Nat) (g : Leaf) (as : List Addr) (hch : isChain h p as = true) :
    retVal (create_leaf h (some p) key count valMem (some g) true) = some as.getLast? ∧
    retVal (create_leaf h (some p) key count valMem (some g) true) ≠ some (some h.length) := by
  have hfl := find_last_of_chain hch
  have hret : retVal (create_leaf h (some p) key count valMem (some g) true)
      = some as.getLast? := by
    unfold create_leaf
    simp only [hfl]
    rfl
  refine ⟨hret, ?_⟩
  rw [hret]
  intro heq
  have heq2 : as.getLast? = some h.length := Option.some.inj heq
  exact absurd (chain_getLast_lt hch heq2) (lt_irrefl _)

/-- C2 witness: on the demo container with an empty chain the call returns
the empty previous tail, not the fresh record at address 2. -/
theorem c2_witness :
    isChain demoHeap 1 [] = true ∧
    retVal (create_leaf demoHeap (some 1) [107, 49] 3 [1, 2, 3] (some zeroLeaf) true)
      = some none :=
  ⟨by decide, (c2_returns_previous_tail demoHeap 1 [107, 49] 3 [1, 2, 3] zeroLeaf []
    (by decide)).1⟩

/-- C9: on a container whose sibling chain is the finite NUL-terminated
address list as, find_last_linear returns the empty result when the chain is
empty and the last record (whose own sibling link is empty) otherwise. -/
theorem c9_find_last_linear_returns_tail (h : Heap) (p : Addr) (as : List Addr)
    (hch : isChain h p as = true) :
    find_last_linear h (some p) = Except.ok as.getLast? ∧
    (∀ r, as.getLast? = some r → (readLeaf h r).map Leaf.east = some none) ∧
    (as = [] → find_last_linear h (some p) = Except.ok none) := by
  obtain ⟨pn, _, hcf⟩ := isChain_elim hch
  refine ⟨find_last_linear_of_chain hch, fun r hr => chain_last_east hcf r hr, fun hnil => ?_⟩
  subst hnil
  exact find_last_linear_of_chain hch

/-- C9 witness: the empty chain of the demo container yields the empty
result; the one-record chain [2] yields record 2. -/
theorem c9_witness :
    isChain demoHeap 1 [] = true ∧
    find_last_linear demoHeap (some 1) = Except.ok none ∧
    isChain demoLeafHeap 1 [2] = true ∧
    find_last_linear demoLeafHeap (some 1) = Except.ok (some 2) :=
  ⟨by decide,
   (c9_find_last_linear_returns_tail demoHeap 1 [] (by decide)).1,
   by decide,
   (c9_find_last_linear_returns_tail demoLeafHeap 1 [2] (by decide)).1⟩

/-- C10: when the value-buffer malloc fails, the fault that stops create_leaf
is zero()'s non-NULL assert (main.c line 8, reached from line 133), never the
dedicated assert(new_leaf->value) on line 134, because the fresh buffer
pointer is passed to zero() before that check runs. -/
theorem c10_zero_assert_fires_first (h : Heap) (p : Addr) (key : List Nat) (count : Nat)
    (valMem : List Nat) (g : Leaf) (as : List Addr) (hch : isChain h p as = true) :
    faultOf (create_leaf h (some p) key count valMem (some g) false)
      = some Fault.zeroAssertNull ∧
    faultOf (create_leaf h (some p) key count valMem (some g) false)
      ≠ some Fault.valueAssert := by
  have hfl := find_last_of_chain hch
  have hf : faultOf (create_leaf h (some p) key count valMem (some g) false)
      = some Fault.zeroAssertNull := by
    unfold create_leaf
    simp only [hfl]
    rfl
  refine ⟨hf, ?_⟩
  rw [hf]
  simp

/-- C10 witness: concrete value-malloc failure on the demo container. -/
theorem c10_witness :
    isChain demoHeap 1 [] = true ∧
    faultOf (create_leaf demoHeap (some 1) [107, 49] 3 [1, 2, 3] (some zeroLeaf) false)
      = some Fault.zeroAssertNull :=
  ⟨by decide, (c10_zero_assert_fires_first demoHeap 1 [107, 49] 3 [1, 2, 3] zeroLeaf []
    (by decide)).1⟩

/-- C4 counterexample: when create_leaf's record malloc fails, the operation
does not return an empty result to the caller - it terminates on
assert(new_leaf) (no value is returned at all), refuting the claim that both
operations report allocation failure via an empty result. -/
theorem c4_counterexample :
    retVal (create_leaf demoHeap (some 1) [107, 49] 3 [1, 2, 3] none true) = none ∧
    faultOf (create_leaf demoHeap (some 1) [107, 49] 3 [1, 2, 3] none true)
      = some Fault.newLeafAssert :=
  ⟨rfl, rfl⟩

/-- C4 amended: create_node reports allocation failure by returning the
empty result with the heap untouched; create_leaf instead terminates via a
failed assertion when either of its allocations fails - its own
assert(new_leaf) for the record malloc, and zero()'s non-NULL assert for the
value-buffer malloc. -/
theorem c4_allocation_failure_reporting (h : Heap) (p : Addr) (path key : List Nat)
    (count : Nat) (valMem : List Nat) (av : Bool) (g : Leaf) (as : List Addr)
    (hch : isChain h p as = true) :
    create_node h (some p) path none = Except.ok (none, h) ∧
    create_leaf h (some p) key count valMem none av
      = Except.error (Fault.newLeafAssert, h) ∧
    faultOf (create_leaf h (some p) key count valMem (some g) false)
      = some Fault.zeroAssertNull := by
  have hfl := find_last_of_chain hch
  refine ⟨rfl, ?_, ?_⟩
  · unfold create_leaf
    simp only [hfl]
  · unfold create_leaf
    simp only [hfl]
    rfl

/-- C4 amended witness: concrete allocation failures on the demo heap. -/
theorem c4_witness :
    isChain demoHeap 1 [] = true ∧
    create_node demoHeap (some 1) [] none = Except.ok (none, demoHeap) ∧
    create_leaf demoHeap (some 1) [107, 49] 3 [1, 2, 3] none true
      = Except.error (Fault.newLeafAssert, demoHeap) :=
  ⟨by decide,
   (c4_allocation_failure_reporting demoHeap 1 [] [107, 49] 3 [1, 2, 3] true zeroLeaf []
     (by decide)).1,
   (c4_allocation_failure_reporting demoHeap 1 [] [107, 49] 3 [1, 2, 3] true zeroLeaf []
     (by decide)).2.1⟩

/-- C3 counterexample: in create_node on the initial heap, the state right
after main.c line 46 (trace index 2) already has the root's child link
pointing at the fresh address 1 while the entity there still carries tag 0 -
the link is made before the tag is assigned, refuting the claimed ordering. -/
theorem c3_counterexample :
    ((create_node_trace initHeap 0 [] zeroNode)[2]?).map
        (fun hm => (nodeWestAt hm 0, nodeTagAt hm 1))
      = some (some (some 1), some 0) ∧ (0 : Nat) ≠ TagNode :=
  ⟨rfl, by decide⟩

/-- C3 amended: in both create_node and create_leaf the link from the
already-reachable entity is made BEFORE the fresh entity's tag is assigned:
each execution - appending at the chain head or after the previous tail -
passes through a state (trace index 2, after main.c line 46 resp. lines
106/111 and 114) in which the new entity is linked but still has tag 0; the
tag is assigned later in the call, so only the final state shows the
reachable entity tagged. -/
theorem c3_link_made_before_tag (h : Heap) (p : Addr) (path key : List Nat) (count : Nat)
    (valMem : List Nat) (gn : Node) (gl : Leaf) (av : Bool) (pn : Node) (as : List Addr)
    (hp : readNode h p = some pn) (hch : isChain h p as = true) :
    create_node h (some p) path (some gn)
      = Except.ok (some h.length, (create_node_trace h p path gn).getLastD h) ∧
    ((create_node_trace h p path gn)[2]?).map
        (fun hm => (nodeWestAt hm p, nodeTagAt hm h.length))
      = some (some (some h.length), some 0) ∧
    (0 : Nat) ≠ TagNode ∧
    nodeTagAt ((create_node_trace h p path gn).getLastD h) h.length = some TagNode ∧
    create_leaf h (some p) key count valMem (some gl) true
      = Except.ok (as.getLast?,
          (create_leaf_trace h p as.getLast? key count valMem gl true).getLastD h) ∧
    (as.getLast? = none →
      ((create_leaf_trace h p none key count valMem gl av)[2]?).map
          (fun hm => (nodeEastAt hm p, leafTagAt hm h.length))
        = some (some (some h.length), some 0)) ∧
    (∀ la, as.getLast? = some la →
      ((create_leaf_trace h p (some la) key count valMem gl av)[2]?).map
          (fun hm => (leafEastAt hm la, leafTagAt hm h.length))
        = some (some (some h.length), some 0)) ∧
    (0 : Nat) ≠ TagLeaf ∧
    leafTagAt ((create_leaf_trace h p as.getLast? key count valMem gl true).getLastD h)
      h.length = some TagLeaf := by
  have hlt : p < h.length := readNode_lt hp
  have hne : p ≠ h.length := Nat.ne_of_lt hlt
  refine ⟨?_, ?_, by decide, ?_, ?_, ?_, ?_, by decide, ?_⟩
  · unfold create_node
    simp only [hp]
  · rw [create_node_trace_get2 path gn hp, Option.map_some']
    have e1 : nodeWestAt (writeEnt (writeEnt (h ++ [Entity.node gn]) h.length
        (Entity.node zeroNode)) p (Entity.node { pn with west := some h.length })) p
        = some (some h.length) := by
      unfold nodeWestAt
      rw [readNode_writeEnt_self _ (by
        rw [length_writeEnt, List.length_append]
        exact Nat.lt_of_lt_of_le hlt (Nat.le_add_right _ _))]
      rfl
    have e2 : nodeTagAt (writeEnt (writeEnt (h ++ [Entity.node gn]) h.length
        (Entity.node zeroNode)) p (Entity.node { pn with west := some h.length })) h.length
        = some 0 := by
      unfold nodeTagAt
      rw [readNode_writeEnt_ne _ hne,
        readNode_writeEnt_self _ (by rw [List.length_append]; simp)]
      rfl
    rw [e1, e2]
  · rw [create_node_trace_last path gn hp]
    unfold nodeTagAt
    rw [cnFinal_readNode_fresh]
    rfl
  · unfold create_leaf
    simp only [find_last_of_chain hch]
    rfl
  · intro _
    rw [create_leaf_trace_get2 key count valMem gl av hp, Option.map_some']
    have e1 : nodeEastAt (writeEnt (writeEnt (h ++ [Entity.leaf gl]) p
        (Entity.node { pn with east := some h.length })) h.length (Entity.leaf zeroLeaf)) p
        = some (some h.length) := by
      unfold nodeEastAt
      rw [readNode_writeEnt_ne _ (Ne.symm hne),
        readNode_writeEnt_self _ (by
          rw [List.length_append]
          exact Nat.lt_of_lt_of_le hlt (Nat.le_add_right _ _))]
      rfl
    have e2 : leafTagAt (writeEnt (writeEnt (h ++ [Entity.leaf gl]) p
        (Entity.node { pn with east := some h.length })) h.length (Entity.leaf zeroLeaf))
        h.length = some 0 := by
      unfold leafTagAt
      rw [readLeaf_writeEnt_self _ (by rw [length_writeEnt, List.length_append]; simp)]
      rfl
    rw [e1, e2]
  · intro la hla
    obtain ⟨ll, hll⟩ := chain_getLast_readLeaf hch hla
    have hlalt : la < h.length := readLeaf_lt hll
    rw [create_leaf_trace_get2_tail key count valMem gl av hll, Option.map_some']
    have e1 : leafEastAt (writeEnt (writeEnt (h ++ [Entity.leaf gl]) la
        (Entity.leaf { ll with east := some h.length })) h.length (Entity.leaf zeroLeaf)) la
        = some (some h.length) := by
      unfold leafEastAt
      rw [readLeaf_writeEnt_ne _ (Ne.symm (Nat.ne_of_lt hlalt)),
        readLeaf_writeEnt_self _ (by
          rw [List.length_append]
          exact Nat.lt_of_lt_of_le hlalt (Nat.le_add_right _ _))]
      rfl
    have e2 : leafTagAt (writeEnt (writeEnt (h ++ [Entity.leaf gl]) la
        (Entity.leaf { ll with east := some h.length })) h.length (Entity.leaf zeroLeaf))
        h.length = some 0 := by
      unfold leafTagAt
      rw [readLeaf_writeEnt_self _ (by rw [length_writeEnt, List.length_append]; simp)]
      rfl
    rw [e1, e2]
  · rcases hq : as.getLast? with _ | la
    · rw [create_leaf_trace_last_empty key count valMem gl hp]
      unfold leafTagAt
      rw [clFinalEmpty_read_fresh]
      rfl
    · obtain ⟨ll, hll⟩ := chain_getLast_readLeaf hch hq
      rw [create_leaf_trace_last_tail key count valMem gl hll]
      unfold leafTagAt
      rw [clFinalTail_read_fresh]
      rfl

/-- C3 amended witness: the intermediate linked-but-untagged states, both for
create_node on the initial heap and for a create_leaf appending after the
previous tail (record 2 of the demo heap with one record). -/
theorem c3_witness :
    readNode initHeap 0 = some rootNode ∧ isChain initHeap 0 [] = true ∧
    ((create_node_trace initHeap 0 [] zeroNode)[2]?).map
        (fun hm => (nodeWestAt hm 0, nodeTagAt hm 1))
      = some (some (some 1), some 0) ∧
    nodeTagAt ((create_node_trace initHeap 0 [] zeroNode).getLastD initHeap) 1
      = some TagNode ∧
    isChain demoLeafHeap 1 [2] = true ∧
    ((create_leaf_trace demoLeafHeap 1 (some 2) [107, 50] 3 [1, 2, 3] zeroLeaf true)[2]?).map
        (fun hm => (leafEastAt hm 2, leafTagAt hm 3))
      = some (some (some 3), some 0) :=
  ⟨rfl, by decide,
   (c3_link_made_before_tag initHeap 0 [] [107, 49] 3 [1, 2, 3] zeroNode zeroLeaf true
     rootNode [] rfl (by decide)).2.1,
   (c3_link_made_before_tag initHeap 0 [] [107, 49] 3 [1, 2, 3] zeroNode zeroLeaf true
     rootNode [] rfl (by decide)).2.2.2.1,
   by decide,
   (c3_link_made_before_tag demoLeafHeap 1 [] [107, 50] 3 [1, 2, 3] zeroNode zeroLeaf true
     { createdNode 0 [] with east := some 2 } [2] rfl (by decide)).2.2.2.2.2.2.1 2 rfl⟩

/-- C5 counterexample: when the value malloc fails inside create_leaf, the
process stops with the new record ALREADY linked into the container's chain
(east head points at address 2, the record is tagged but its value is NULL)
and the heap differs from the pre-call heap - refuting the claim that an
erroring operation leaves the tree exactly as it was. -/
theorem c5_counterexample :
    faultOf (create_leaf demoHeap (some 1) [107, 49] 3 [1, 2, 3] (some zeroLeaf) false)
      = some Fault.zeroAssertNull ∧
    faultHeap (create_leaf demoHeap (some 1) [107, 49] 3 [1, 2, 3] (some zeroLeaf) false)
      demoHeap ≠ demoHeap ∧
    nodeEastAt (faultHeap (create_leaf demoHeap (some 1) [107, 49] 3 [1, 2, 3]
      (some zeroLeaf) false) demoHeap) 1 = some (some 2) ∧
    (readLeaf (faultHeap (create_leaf demoHeap (some 1) [107, 49] 3 [1, 2, 3]
      (some zeroLeaf) false) demoHeap) 2).map (fun l => (l.tag, l.value))
      = some (TagLeaf, none) :=
  ⟨rfl, fun heq => absurd (congrArg List.length heq) (by decide), rfl, rfl⟩

/-- C5 amended: create_node either fully constructs and links the new
container or leaves the heap exactly as it was (failed malloc, failed parent
assert); create_leaf - on any chain, empty or not - leaves the heap
unchanged when its parent assert or its record malloc fails, but when its
value-buffer malloc fails it terminates with the new record already linked
into the chain (from the container head or from the previous tail) and only
partially constructed (tagged, value NULL), so the no-partial-state
guarantee does not hold for create_leaf. -/
theorem c5_atomicity (h : Heap) (p : Addr) (path key : List Nat) (count : Nat)
    (valMem : List Nat) (gn : Node) (gl : Leaf) (pn : Node) (as : List Addr)
    (hp : readNode h p = some pn) (hch : isChain h p as = true) :
    create_node h (some p) path none = Except.ok (none, h) ∧
    create_node h none path (some gn) = Except.error (Fault.nodeParentAssert, h) ∧
    create_node h (some p) path (some gn) = Except.ok (some h.length, cnFinal h p path gn pn) ∧
    nodeWestAt (cnFinal h p path gn pn) p = some (some h.length) ∧
    readNode (cnFinal h p path gn pn) h.length = some (createdNode p path) ∧
    create_leaf h none key count valMem (some gl) true
      = Except.error (Fault.leafParentAssert, h) ∧
    create_leaf h (some p) key count valMem none true
      = Except.error (Fault.newLeafAssert, h) ∧
    faultOf (create_leaf h (some p) key count valMem (some gl) false)
      = some Fault.zeroAssertNull ∧
    (readLeaf (faultHeap (create_leaf h (some p) key count valMem (some gl) false) h)
        h.length).map (fun l => (l.tag, l.value))
      = some (TagLeaf, (none : Option (List Nat))) ∧
    (as.getLast? = none →
      nodeEastAt (faultHeap (create_leaf h (some p) key count valMem (some gl) false) h) p
        = some (some h.length)) ∧
    (∀ la, as.getLast? = some la →
      leafEastAt (faultHeap (create_leaf h (some p) key count valMem (some gl) false) h) la
        = some (some h.length)) ∧
    faultHeap (create_leaf h (some p) key count valMem (some gl) false) h ≠ h := by
  have hlt : p < h.length := readNode_lt hp
  have hsplit : (as.getLast? = none ∧ create_leaf h (some p) key count valMem (some gl) false
        = Except.error (Fault.zeroAssertNull, clHaltEmpty h p key gl pn)) ∨
      (∃ la ll, as.getLast? = some la ∧ readLeaf h la = some ll ∧ la < h.length ∧
        create_leaf h (some p) key count valMem (some gl) false
          = Except.error (Fault.zeroAssertNull, clHaltTail h la key gl ll)) := by
    rcases hq : as.getLast? with _ | la
    · left
      have hnil : as = [] := List.getLast?_eq_none_iff.mp hq
      have he : pn.east = none := chain_empty_east hp (hnil ▸ hch)
      exact ⟨rfl, create_leaf_halt_run_empty key count valMem gl hp he⟩
    · right
      obtain ⟨ll, hll⟩ := chain_getLast_readLeaf hch hq
      have hfl : find_last h (some p) = Except.ok (some la) := by
        rw [find_last_of_chain hch, hq]
      exact ⟨la, ll, rfl, hll, readLeaf_lt hll,
        create_leaf_halt_run_tail key count valMem gl hfl hll⟩
  refine ⟨rfl, rfl, create_node_run path gn hp, ?_, cnFinal_readNode_fresh h p path gn pn,
    rfl, create_leaf_allocfail key count valMem true (find_last_of_chain hch),
    ?_, ?_, ?_, ?_, ?_⟩
  · unfold nodeWestAt
    rw [cnFinal_readNode_parent path gn pn hlt]
    rfl
  · rcases hsplit with ⟨hq, heq⟩ | ⟨la, ll, hq, hll, hlalt, heq⟩
    · rw [heq]
      rfl
    · rw [heq]
      rfl
  · rcases hsplit with ⟨hq, heq⟩ | ⟨la, ll, hq, hll, hlalt, heq⟩
    · rw [heq]
      simp only [faultHeap]
      rw [clHaltEmpty_read_fresh]
      rfl
    · rw [heq]
      simp only [faultHeap]
      rw [clHaltTail_read_fresh]
      rfl
  · intro hq0
    rcases hsplit with ⟨hq, heq⟩ | ⟨la, ll, hq, hll, hlalt, heq⟩
    · rw [heq]
      simp only [faultHeap]
      unfold nodeEastAt
      rw [clHaltEmpty_read_parent key gl pn hlt]
      rfl
    · rw [hq0] at hq
      exact absurd hq (by simp)
  · intro la2 hla2
    rcases hsplit with ⟨hq, heq⟩ | ⟨la, ll, hq, hll, hlalt, heq⟩
    · rw [hq] at hla2
      exact absurd hla2 (by simp)
    · have hlaeq : la = la2 := by
        rw [hq] at hla2
        exact Option.some.inj hla2
      subst hlaeq
      rw [heq]
      simp only [faultHeap]
      unfold leafEastAt
      rw [clHaltTail_read_tail key gl ll hlalt]
      rfl
  · rcases hsplit with ⟨hq, heq⟩ | ⟨la, ll, hq, hll, hlalt, heq⟩
    · rw [heq]
      simp only [faultHeap]
      intro hcontra
      have hlen := congrArg List.length hcontra
      rw [clHaltEmpty_length] at hlen
      exact absurd hlen (Nat.succ_ne_self _)
    · rw [heq]
      simp only [faultHeap]
      intro hcontra
      have hlen := congrArg List.length hcontra
      rw [clHaltTail_length] at hlen
      exact absurd hlen (Nat.succ_ne_self _)

/-- C5 amended witness: atomicity facts at the demo container, including the
non-atomic value-malloc failure for an empty chain and for an append after
the previous tail (record 2 of the one-record demo heap). -/
theorem c5_witness :
    readNode demoHeap 1 = some (createdNode 0 []) ∧ isChain demoHeap 1 [] = true ∧
    create_node demoHeap (some 1) [] none = Except.ok (none, demoHeap) ∧
    faultHeap (create_leaf demoHeap (some 1) [107, 49] 3 [1, 2, 3] (some zeroLeaf) false)
      demoHeap ≠ demoHeap ∧
    isChain demoLeafHeap 1 [2] = true ∧
    leafEastAt (faultHeap (create_leaf demoLeafHeap (some 1) [107, 50] 3 [1, 2, 3]
      (some zeroLeaf) false) demoLeafHeap) 2 = some (some 3) :=
  ⟨rfl, by decide,
   (c5_atomicity demoHeap 1 [] [107, 49] 3 [1, 2, 3] zeroNode zeroLeaf (createdNode 0 []) []
     rfl (by decide)).1,
   (c5_atomicity demoHeap 1 [] [107, 49] 3 [1, 2, 3] zeroNode zeroLeaf (createdNode 0 []) []
     rfl (by decide)).2.2.2.2.2.2.2.2.2.2.2,
   by decide,
   (c5_atomicity demoLeafHeap 1 [] [107, 50] 3 [1, 2, 3] zeroNode zeroLeaf
     { createdNode 0 [] with east := some 2 } [2] rfl
     (by decide)).2.2.2.2.2.2.2.2.2.2.1 2 rfl⟩

/-- C6: after every successful create_node and create_leaf call, whatever
the length of the supplied path or key bytes, the stored path label and key
are NUL-terminated strings of at most 255 resp. 127 content bytes - the
stored content is exactly the input truncated to that many bytes, a NUL byte
follows the content inside the fixed buffer, and the operations succeed
(never reject) regardless of the input length. -/
theorem c6_bounded_nul_terminated_strings (h : Heap) (p : Addr) (path key : List Nat)
    (count : Nat) (valMem : List Nat) (gn : Node) (gl : Leaf) (pn : Node) (as : List Addr)
    (hp : readNode h p = some pn) (hch : isChain h p as = true) :
    retVal (create_node h (some p) path (some gn)) = some (some h.length) ∧
    (readNode (afterCreateNode h p path gn) h.length).map (fun n => strContent n.path)
      = some ((strContent path).take 255) ∧
    ((strContent path).take 255).length ≤ 255 ∧
    (readNode (afterCreateNode h p path gn) h.length).map
        (fun n => decide ((strContent n.path).length < n.path.length)) = some true ∧
    retVal (create_leaf h (some p) key count valMem (some gl) true) = some as.getLast? ∧
    (readLeaf (afterCreateLeaf h p key count valMem gl) h.length).map
        (fun l => strContent l.key) = some ((strContent key).take 127) ∧
    ((strContent key).take 127).length ≤ 127 ∧
    (readLeaf (afterCreateLeaf h p key count valMem gl) h.length).map
        (fun l => decide ((strContent l.key).length < l.key.length)) = some true := by
  have hrunN := create_node_run path gn hp
  have hacn : afterCreateNode h p path gn = cnFinal h p path gn pn := by
    unfold afterCreateNode okHeap
    rw [hrunN]
  have hfresh := afterCreateLeaf_read_fresh_of_chain key count valMem gl hch
  refine ⟨by rw [hrunN]; rfl, ?_, ?_, ?_, ?_, ?_, ?_, ?_⟩
  · rw [hacn, cnFinal_readNode_fresh, Option.map_some']
    unfold createdNode
    rw [strContent_pathBuf]
  · rw [List.length_take]
    exact Nat.min_le_left _ _
  · rw [hacn, cnFinal_readNode_fresh, Option.map_some']
    unfold createdNode
    have hlt : (strContent (snprintfBuf (List.replicate 256 0) 256 path)).length <
        (snprintfBuf (List.replicate 256 0) 256 path).length := by
      rw [strContent_pathBuf, length_pathBuf, List.length_take]
      have := Nat.min_le_left 255 (strContent path).length
      omega
    rw [decide_eq_true hlt]
  · unfold create_leaf
    simp only [find_last_of_chain hch]
    rfl
  · rw [hfresh, Option.map_some']
    unfold createdLeaf
    rw [strContent_keyBuf]
  · rw [List.length_take]
    exact Nat.min_le_left _ _
  · rw [hfresh, Option.map_some']
    unfold createdLeaf
    have hlt : (strContent (writeBytes (List.replicate 128 0) (strncpyChunk key 127))).length <
        (writeBytes (List.replicate 128 0) (strncpyChunk key 127)).length := by
      rw [strContent_keyBuf, length_keyBuf, List.length_take]
      have := Nat.min_le_left 127 (strContent key).length
      omega
    rw [decide_eq_true hlt]

/-- C6 witness: an oversized path (300 bytes of 65) is truncated to 255
bytes and the call still succeeds; the short key "k1" is stored as is for a
first append, and likewise for an append to the non-empty chain of the
one-record demo heap. -/
theorem c6_witness :
    readNode demoHeap 1 = some (createdNode 0 []) ∧ isChain demoHeap 1 [] = true ∧
    retVal (create_node demoHeap (some 1) (List.replicate 300 65) (some zeroNode))
      = some (some 2) ∧
    ((strContent (List.replicate 300 65)).take 255).length ≤ 255 ∧
    (readLeaf (afterCreateLeaf demoHeap 1 [107, 49] 3 [1, 2, 3] zeroLeaf) 2).map
        (fun l => strContent l.key) = some ((strContent [107, 49]).take 127) ∧
    isChain demoLeafHeap 1 [2] = true ∧
    (readLeaf (afterCreateLeaf demoLeafHeap 1 [107, 50] 3 [1, 2, 3] zeroLeaf) 3).map
        (fun l => strContent l.key) = some ((strContent [107, 50]).take 127) :=
  ⟨rfl, by decide,
   (c6_bounded_nul_terminated_strings demoHeap 1 (List.replicate 300 65) [107, 49] 3
     [1, 2, 3] zeroNode zeroLeaf (createdNode 0 []) [] rfl (by decide)).1,
   (c6_bounded_nul_terminated_strings demoHeap 1 (List.replicate 300 65) [107, 49] 3
     [1, 2, 3] zeroNode zeroLeaf (createdNode 0 []) [] rfl (by decide)).2.2.1,
   (c6_bounded_nul_terminated_strings demoHeap 1 (List.replicate 300 65) [107, 49] 3
     [1, 2, 3] zeroNode zeroLeaf (createdNode 0 []) [] rfl (by decide)).2.2.2.2.2.1,
   by decide,
   (c6_bounded_nul_terminated_strings demoLeafHeap 1 (List.replicate 300 65) [107, 50] 3
     [1, 2, 3] zeroNode zeroLeaf { createdNode 0 [] with east := some 2 } [2] rfl
     (by decide)).2.2.2.2.2.1⟩

theorem westReach_none (h : Heap) (fuel : Nat) : westReach h fuel none = [] := by
  cases fuel <;> rfl

/-- C7: a successful create_node links the fresh container under the parent
(parent link set, the parent's single child-container slot overwritten to
the fresh address, child link and leaf-chain head empty), and a second call
on the same parent overwrites the slot so that only the second result is
reachable from the parent by child-container links. -/
theorem c7_link_and_overwrite (h : Heap) (p : Addr) (path1 path2 : List Nat)
    (g1 g2 : Node) (pn : Node) (hp : readNode h p = some pn) :
    create_node h (some p) path1 (some g1)
      = Except.ok (some h.length, cnFinal h p path1 g1 pn) ∧
    nodeNorthAt (cnFinal h p path1 g1 pn) h.length = some (some p) ∧
    nodeWestAt (cnFinal h p path1 g1 pn) p = some (some h.length) ∧
    nodeWestAt (cnFinal h p path1 g1 pn) h.length = some none ∧
    nodeEastAt (cnFinal h p path1 g1 pn) h.length = some none ∧
    create_node (cnFinal h p path1 g1 pn) (some p) path2 (some g2)
      = Except.ok (some (h.length + 1),
          cnFinal (cnFinal h p path1 g1 pn) p path2 g2 { pn with west := some h.length }) ∧
    nodeWestAt (cnFinal (cnFinal h p path1 g1 pn) p path2 g2
        { pn with west := some h.length }) p = some (some (h.length + 1)) ∧
    h.length ≠ h.length + 1 ∧
    h.length ∉ westReach
        (cnFinal (cnFinal h p path1 g1 pn) p path2 g2 { pn with west := some h.length })
        (cnFinal (cnFinal h p path1 g1 pn) p path2 g2
          { pn with west := some h.length }).length (some p) := by
  have hlt : p < h.length := readNode_lt hp
  have len1 : (cnFinal h p path1 g1 pn).length = h.length + 1 := cnFinal_length h p path1 g1 pn
  have hp2 : readNode (cnFinal h p path1 g1 pn) p = some { pn with west := some h.length } :=
    cnFinal_readNode_parent path1 g1 pn hlt
  have hlt2 : p < (cnFinal h p path1 g1 pn).length := by
    rw [len1]
    exact Nat.lt_of_lt_of_le hlt (Nat.le_add_right _ _)
  have hrun2 := create_node_run path2 g2 hp2
  have hrun2b : create_node (cnFinal h p path1 g1 pn) (some p) path2 (some g2)
      = Except.ok (some (h.length + 1),
          cnFinal (cnFinal h p path1 g1 pn) p path2 g2 { pn with west := some h.length }) := by
    rw [hrun2, len1]
  have hfresh2 : readNode (cnFinal (cnFinal h p path1 g1 pn) p path2 g2
      { pn with west := some h.length }) (h.length + 1) = some (createdNode p path2) := by
    have := cnFinal_readNode_fresh (cnFinal h p path1 g1 pn) p path2 g2
      { pn with west := some h.length }
    rw [len1] at this
    exact this
  have hpar2 : readNode (cnFinal (cnFinal h p path1 g1 pn) p path2 g2
      { pn with west := some h.length }) p
      = some { pn with west := some ((cnFinal h p path1 g1 pn).length) } := by
    have := cnFinal_readNode_parent path2 g2 { pn with west := some h.length } hlt2
    exact this
  have hpar2b : readNode (cnFinal (cnFinal h p path1 g1 pn) p path2 g2
      { pn with west := some h.length }) p
      = some { pn with west := some (h.length + 1) } := by
    rw [hpar2, len1]
  have len2 : (cnFinal (cnFinal h p path1 g1 pn) p path2 g2
      { pn with west := some h.length }).length = h.length + 1 + 1 := by
    rw [cnFinal_length, len1]
  refine ⟨create_node_run path1 g1 hp, ?_, ?_, ?_, ?_, hrun2b, ?_, (Nat.succ_ne_self h.length).symm, ?_⟩
  · unfold nodeNorthAt
    rw [cnFinal_readNode_fresh]
    rfl
  · unfold nodeWestAt
    rw [hp2]
    rfl
  · unfold nodeWestAt
    rw [cnFinal_readNode_fresh]
    rfl
  · unfold nodeEastAt
    rw [cnFinal_readNode_fresh]
    rfl
  · unfold nodeWestAt
    rw [hpar2b]
    rfl
  · rw [len2]
    simp only [westReach, hpar2b, hfresh2, createdNode, westReach_none]
    intro hmem
    rcases List.mem_cons.mp hmem with h1 | hmem2
    · exact Nat.ne_of_lt hlt h1.symm
    · rcases List.mem_cons.mp hmem2 with h2 | h3
      · exact Nat.succ_ne_self h.length h2.symm
      · exact absurd h3 (List.not_mem_nil _)

theorem chase_step {h : Heap} {a a2 : Addr} {l : Leaf} (fuel : Nat)
    (hl : readLeaf h a = some l) (he : l.east = some a2) :
    chase h (fuel + 1) a = chase h fuel a2 := by
  simp only [chase, hl, he]

theorem chase_last {h : Heap} {a : Addr} {l : Leaf} (fuel : Nat)
    (hl : readLeaf h a = some l) (he : l.east = none) :
    chase h (fuel + 1) a = Except.ok a := by
  simp only [chase, hl, he]

/-- C8: three successful create_leaf calls on a container whose chain is
initially empty produce records at the successive fresh addresses a1, a2, a3
with: chain head = a1, a1.east = a2, a2.east = a3, a3.east empty.  The
retVal conjuncts certify that all three calls succeed (returning the
previous tail each time). -/
theorem c8_three_appends_chain_order (h : Heap) (p : Addr) (k1 k2 k3 : List Nat)
    (c1 c2 c3 : Nat) (v1 v2 v3 : List Nat) (g1 g2 g3 : Leaf) (pn : Node)
    (hp : readNode h p = some pn) (he : pn.east = none) :
    retVal (create_leaf h (some p) k1 c1 v1 (some g1) true) = some none ∧
    retVal (create_leaf (afterCreateLeaf h p k1 c1 v1 g1) (some p) k2 c2 v2 (some g2) true)
      = some (some h.length) ∧
    retVal (create_leaf (afterCreateLeaf (afterCreateLeaf h p k1 c1 v1 g1) p k2 c2 v2 g2)
        (some p) k3 c3 v3 (some g3) true) = some (some (h.length + 1)) ∧
    nodeEastAt (afterCreateLeaf (afterCreateLeaf (afterCreateLeaf h p k1 c1 v1 g1)
        p k2 c2 v2 g2) p k3 c3 v3 g3) p = some (some h.length) ∧
    leafEastAt (afterCreateLeaf (afterCreateLeaf (afterCreateLeaf h p k1 c1 v1 g1)
        p k2 c2 v2 g2) p k3 c3 v3 g3) h.length = some (some (h.length + 1)) ∧
    leafEastAt (afterCreateLeaf (afterCreateLeaf (afterCreateLeaf h p k1 c1 v1 g1)
        p k2 c2 v2 g2) p k3 c3 v3 g3) (h.length + 1) = some (some (h.length + 2)) ∧
    leafEastAt (afterCreateLeaf (afterCreateLeaf (afterCreateLeaf h p k1 c1 v1 g1)
        p k2 c2 v2 g2) p k3 c3 v3 g3) (h.length + 2) = some none := by
  have hlt : p < h.length := readNode_lt hp
  -- first append (empty chain)
  have run1 := create_leaf_run_empty k1 c1 v1 g1 hp he
  have hH1 : afterCreateLeaf h p k1 c1 v1 g1 = clFinalEmpty h p k1 c1 v1 g1 pn := by
    unfold afterCreateLeaf okHeap
    rw [run1]
  have rp1 : readNode (clFinalEmpty h p k1 c1 v1 g1 pn) p
      = some { pn with east := some h.length } := clFinalEmpty_read_parent k1 c1 v1 g1 pn hlt
  have rf1 : readLeaf (clFinalEmpty h p k1 c1 v1 g1 pn) h.length
      = some (createdLeaf (some p) k1 c1 v1) := clFinalEmpty_read_fresh k1 c1 v1 g1 pn
  have len1 : (clFinalEmpty h p k1 c1 v1 g1 pn).length = h.length + 1 :=
    clFinalEmpty_length h p k1 c1 v1 g1 pn
  -- the tail search now finds the first record
  have ffl2 : find_last (clFinalEmpty h p k1 c1 v1 g1 pn) (some p)
      = Except.ok (some h.length) := by
    unfold find_last find_last_linear
    simp only [rp1, len1]
    rw [chase_last _ rf1 rfl]
    rfl
  -- second append (tail at h.length)
  have run2 := create_leaf_run_tail k2 c2 v2 g2 ffl2 rf1
  have hH2 : afterCreateLeaf (clFinalEmpty h p k1 c1 v1 g1 pn) p k2 c2 v2 g2
      = clFinalTail (clFinalEmpty h p k1 c1 v1 g1 pn) h.length k2 c2 v2 g2
          (createdLeaf (some p) k1 c1 v1) := by
    unfold afterCreateLeaf okHeap
    rw [run2]
  have hlt1 : h.length < (clFinalEmpty h p k1 c1 v1 g1 pn).length := by
    rw [len1]
    exact Nat.lt_succ_self _
  have rt2 : readLeaf (clFinalTail (clFinalEmpty h p k1 c1 v1 g1 pn) h.length k2 c2 v2 g2
        (createdLeaf (some p) k1 c1 v1)) h.length
      = some { createdLeaf (some p) k1 c1 v1 with
          east := some (clFinalEmpty h p k1 c1 v1 g1 pn).length } :=
    clFinalTail_read_tail k2 c2 v2 g2 (createdLeaf (some p) k1 c1 v1) hlt1
  rw [len1] at rt2
  have rf2 : readLeaf (clFinalTail (clFinalEmpty h p k1 c1 v1 g1 pn) h.length k2 c2 v2 g2
        (createdLeaf (some p) k1 c1 v1)) (clFinalEmpty h p k1 c1 v1 g1 pn).length
      = some (createdLeaf (some h.length) k2 c2 v2) :=
    clFinalTail_read_fresh k2 c2 v2 g2 (createdLeaf (some p) k1 c1 v1)
  rw [len1] at rf2
  have hbf1 : p ≠ (clFinalEmpty h p k1 c1 v1 g1 pn).length := by
    rw [len1]
    exact Nat.ne_of_lt (Nat.lt_succ_of_lt hlt)
  have rp2 : readNode (clFinalTail (clFinalEmpty h p k1 c1 v1 g1 pn) h.length k2 c2 v2 g2
        (createdLeaf (some p) k1 c1 v1)) p = some { pn with east := some h.length } := by
    rw [readNode_of_getElem_eq (clFinalTail_read_other k2 c2 v2 g2
      (createdLeaf (some p) k1 c1 v1) (Nat.ne_of_lt hlt) hbf1)]
    exact rp1
  have len2 : (clFinalTail (clFinalEmpty h p k1 c1 v1 g1 pn) h.length k2 c2 v2 g2
      (createdLeaf (some p) k1 c1 v1)).length = h.length + 1 + 1 := by
    rw [clFinalTail_length, len1]
  -- the tail search now walks two records
  have ffl3 : find_last (clFinalTail (clFinalEmpty h p k1 c1 v1 g1 pn) h.length k2 c2 v2 g2
        (createdLeaf (some p) k1 c1 v1)) (some p) = Except.ok (some (h.length + 1)) := by
    unfold find_last find_last_linear
    simp only [rp2, len2]
    rw [chase_step _ rt2 rfl, chase_last _ rf2 rfl]
    rfl
  -- third append (tail at h.length + 1)
  have run3 := create_leaf_run_tail k3 c3 v3 g3 ffl3 rf2
  have hH3 : afterCreateLeaf (clFinalTail (clFinalEmpty h p k1 c1 v1 g1 pn) h.length
        k2 c2 v2 g2 (createdLeaf (some p) k1 c1 v1)) p k3 c3 v3 g3
      = clFinalTail (clFinalTail (clFinalEmpty h p k1 c1 v1 g1 pn) h.length k2 c2 v2 g2
          (createdLeaf (some p) k1 c1 v1)) (h.length + 1) k3 c3 v3 g3
          (createdLeaf (some h.length) k2 c2 v2) := by
    unfold afterCreateLeaf okHeap
    rw [run3]
  have hlt2 : h.length + 1 < (clFinalTail (clFinalEmpty h p k1 c1 v1 g1 pn) h.length
      k2 c2 v2 g2 (createdLeaf (some p) k1 c1 v1)).length := by
    rw [len2]
    exact Nat.lt_succ_self _
  have rt3 : readLeaf (clFinalTail (clFinalTail (clFinalEmpty h p k1 c1 v1 g1 pn) h.length
        k2 c2 v2 g2 (createdLeaf (some p) k1 c1 v1)) (h.length + 1) k3 c3 v3 g3
        (createdLeaf (some h.length) k2 c2 v2)) (h.length + 1)
      = some { createdLeaf (some h.length) k2 c2 v2 with
          east := some (clFinalTail (clFinalEmpty h p k1 c1 v1 g1 pn) h.length k2 c2 v2 g2
            (createdLeaf (some p) k1 c1 v1)).length } :=
    clFinalTail_read_tail k3 c3 v3 g3 (createdLeaf (some h.length) k2 c2 v2) hlt2
  rw [len2] at rt3
  have rf3 : readLeaf (clFinalTail (clFinalTail (clFinalEmpty h p k1 c1 v1 g1 pn) h.length
        k2 c2 v2 g2 (createdLeaf (some p) k1 c1 v1)) (h.length + 1) k3 c3 v3 g3
        (createdLeaf (some h.length) k2 c2 v2))
        (clFinalTail (clFinalEmpty h p k1 c1 v1 g1 pn) h.length k2 c2 v2 g2
          (createdLeaf (some p) k1 c1 v1)).length
      = some (createdLeaf (some (h.length + 1)) k3 c3 v3) :=
    clFinalTail_read_fresh k3 c3 v3 g3 (createdLeaf (some h.length) k2 c2 v2)
  rw [len2] at rf3
  have hbf2 : p ≠ (clFinalTail (clFinalEmpty h p k1 c1 v1 g1 pn) h.length k2 c2 v2 g2
      (createdLeaf (some p) k1 c1 v1)).length := by
    rw [len2]
    exact Nat.ne_of_lt (Nat.lt_succ_of_lt (Nat.lt_succ_of_lt hlt))
  have hne01 : (h.length : Nat) ≠ h.length + 1 := Nat.ne_of_lt (Nat.lt_succ_self _)
  have hbf3 : (h.length : Nat) ≠ (clFinalTail (clFinalEmpty h p k1 c1 v1 g1 pn) h.length
      k2 c2 v2 g2 (createdLeaf (some p) k1 c1 v1)).length := by
    rw [len2]
    exact Nat.ne_of_lt (Nat.lt_succ_of_lt (Nat.lt_succ_self _))
  -- final-state reads
  have rp3 : readNode (clFinalTail (clFinalTail (clFinalEmpty h p k1 c1 v1 g1 pn) h.length
        k2 c2 v2 g2 (createdLeaf (some p) k1 c1 v1)) (h.length + 1) k3 c3 v3 g3
        (createdLeaf (some h.length) k2 c2 v2)) p = some { pn with east := some h.length } := by
    rw [readNode_of_getElem_eq (clFinalTail_read_other k3 c3 v3 g3
      (createdLeaf (some h.length) k2 c2 v2)
      (Nat.ne_of_lt (Nat.lt_succ_of_lt hlt)) hbf2)]
    exact rp2
  have rl3 : readLeaf (clFinalTail (clFinalTail (clFinalEmpty h p k1 c1 v1 g1 pn) h.length
        k2 c2 v2 g2 (createdLeaf (some p) k1 c1 v1)) (h.length + 1) k3 c3 v3 g3
        (createdLeaf (some h.length) k2 c2 v2)) h.length
      = some { createdLeaf (some p) k1 c1 v1 with east := some (h.length + 1) } := by
    rw [readLeaf_of_getElem_eq (clFinalTail_read_other k3 c3 v3 g3
      (createdLeaf (some h.length) k2 c2 v2) hne01 hbf3)]
    exact rt2
  refine ⟨?_, ?_, ?_, ?_, ?_, ?_, ?_⟩
  · rw [run1]
    rfl
  · rw [hH1, run2]
    rfl
  · rw [hH1, hH2, run3]
    rfl
  · rw [hH1, hH2, hH3]
    unfold nodeEastAt
    rw [rp3]
    rfl
  · rw [hH1, hH2, hH3]
    unfold leafEastAt
    rw [rl3]
    rfl
  · rw [hH1, hH2, hH3]
    unfold leafEastAt
    rw [rt3]
    rfl
  · rw [hH1, hH2, hH3]
    unfold leafEastAt
    rw [rf3]
    rfl

/-- C8 witness: three appends on the demo container produce the chain
2 -> 3 -> 4 with head 2 and a NUL-terminated tail. -/
theorem c8_witness :
    readNode demoHeap 1 = some (createdNode 0 []) ∧ (createdNode 0 []).east = none ∧
    nodeEastAt (afterCreateLeaf (afterCreateLeaf (afterCreateLeaf demoHeap 1 [107, 49] 3
        [1, 2, 3] zeroLeaf) 1 [107, 50] 3 [1, 2, 3] zeroLeaf) 1 [107, 51] 3 [1, 2, 3]
        zeroLeaf) 1 = some (some 2) ∧
    leafEastAt (afterCreateLeaf (afterCreateLeaf (afterCreateLeaf demoHeap 1 [107, 49] 3
        [1, 2, 3] zeroLeaf) 1 [107, 50] 3 [1, 2, 3] zeroLeaf) 1 [107, 51] 3 [1, 2, 3]
        zeroLeaf) 4 = some none :=
  ⟨rfl, rfl,
   (c8_three_appends_chain_order demoHeap 1 [107, 49] [107, 50] [107, 51] 3 3 3
     [1, 2, 3] [1, 2, 3] [1, 2, 3] zeroLeaf zeroLeaf zeroLeaf (createdNode 0 [])
     rfl rfl).2.2.2.1,
   (c8_three_appends_chain_order demoHeap 1 [107, 49] [107, 50] [107, 51] 3 3 3
     [1, 2, 3] [1, 2, 3] [1, 2, 3] zeroLeaf zeroLeaf zeroLeaf (createdNode 0 [])
     rfl rfl).2.2.2.2.2.2⟩

/-- C7 witness: two create_node calls on the demo container at address 1. -/
theorem c7_witness :
    readNode demoHeap 1 = some (createdNode 0 []) ∧
    create_node demoHeap (some 1) [] (some zeroNode)
      = Except.ok (some 2, cnFinal demoHeap 1 [] zeroNode (createdNode 0 [])) ∧
    nodeWestAt (cnFinal (cnFinal demoHeap 1 [] zeroNode (createdNode 0 [])) 1 []
        zeroNode { createdNode 0 [] with west := some 2 }) 1 = some (some 3) :=
  ⟨rfl,
   (c7_link_and_overwrite demoHeap 1 [] [] zeroNode zeroNode (createdNode 0 []) rfl).1,
   (c7_link_and_overwrite demoHeap 1 [] [] zeroNode zeroNode (createdNode 0 [])
     rfl).2.2.2.2.2.2.1⟩

end DbServer
